import Mathlib

/-!
# sqlc-test: the author CRUD service

A shallow embedding of the layered author service (transport handler, use cases,
repository contract, persistence adapter, in-memory reference repository) and of
the library calls the handlers make (strconv.ParseInt, the response recorder,
http.Error).

Conventions of the embedding:

* Go `int64` values are `Int`; the only place where the width matters is
  `strconv.ParseInt`, which checks the range explicitly.
* A Go `(*T, error)` result is a pair of options: `none` is `nil`.
* Stateful code is explicit state passing: a repository operation takes the
  store state and returns its result together with the next state.
* A `[]*Author` holding distinct non-nil pointers is a `List Author`.
-/

set_option autoImplicit false

namespace SqlcTest

/-! ## pgtype.Text and the domain entities (internal/domain/author/entity.go) -/

namespace pgtype

/-- The nullable text of pgx: `Valid = false` is SQL NULL, whatever `String` holds. -/
structure Text where
  String : String
  Valid : Bool
  deriving DecidableEq, Repr

end pgtype

/-- A Go `error` value; only its identity and message matter here. -/
structure Error where
  msg : String
  deriving DecidableEq, Repr

/-- A stand-in for `context.Context`: a token that lets one state that a call
forwards the very context it received. -/
structure Context where
  key : Nat
  deriving DecidableEq, Repr

namespace author

/-- Author represents an author in the domain model. -/
structure Author where
  ID : Int
  Name : String
  Bio : pgtype.Text
  deriving DecidableEq, Repr

/-- CreateAuthorParams holds parameters for creating an author. -/
structure CreateAuthorParams where
  Name : String
  Bio : pgtype.Text
  deriving DecidableEq, Repr

/-- UpdateAuthorParams holds parameters for updating an author. -/
structure UpdateAuthorParams where
  ID : Int
  Name : String
  Bio : pgtype.Text
  deriving DecidableEq, Repr

/-- Repository defines the interface for author data access
(internal/domain/author/repository.go). Each method takes the store state `σ`
and returns the Go result pair together with the next store state. -/
structure Repository (σ : Type) where
  GetAuthor : Context → Int → σ → (Option Author × Option Error) × σ
  ListAuthors : Context → σ → (List Author × Option Error) × σ
  CreateAuthor : Context → CreateAuthorParams → σ → (Option Author × Option Error) × σ
  UpdateAuthor : Context → UpdateAuthorParams → σ → Option Error × σ
  DeleteAuthor : Context → Int → σ → Option Error × σ

end author

/-! ## strconv.ParseInt(s, 10, 64) -/

namespace strconv

/-- The two failures of a numeric conversion. -/
inductive NumError where
  | ErrSyntax
  | ErrRange
  deriving DecidableEq, Repr

/-- The largest value of a `uint64`. -/
def maxUint64 : Nat := 2 ^ 64 - 1

/-- The digit loop of `ParseUint` for base 10 and bit size 64, started from the
accumulator `n`. The result is the Go pair (value, err): a byte that is not a
decimal digit is a syntax error with value 0; an accumulator at or over the
cutoff, or a sum over the maximum, is a range error with value `maxUint64`. -/
def parseUintLoop : List Char → Nat → Nat × Option NumError
  | [], n => (n, none)
  | c :: cs, n =>
    if (decide ('0' ≤ c) && decide (c ≤ '9')) then
      let d := c.toNat - '0'.toNat
      if n ≥ maxUint64 / 10 + 1 then (maxUint64, some .ErrRange)
      else
        let n1 := n * 10 + d
        if n1 > maxUint64 then (maxUint64, some .ErrRange)
        else parseUintLoop cs n1
    else (0, some .ErrSyntax)

/-- `ParseUint(s, 10, 64)`. -/
def ParseUint (s : List Char) : Nat × Option NumError :=
  if s = [] then (0, some .ErrSyntax) else parseUintLoop s 0

/-- `ParseInt(s, 10, 64)`: an optional sign, then `ParseUint`, then the check
against the cutoff `1 << 63`. A range error of `ParseUint` carries the value
`maxUint64` on, which the cutoff check then rejects. The result is the Go pair
(value, err). -/
def ParseInt (s : String) : Int × Option NumError :=
  match s.data with
  | [] => (0, some .ErrSyntax)
  | c :: cs =>
    let neg := c == '-'
    let rest := if c == '+' || c == '-' then cs else c :: cs
    match ParseUint rest with
    | (_, some .ErrSyntax) => (0, some .ErrSyntax)
    | (un, _) =>
      let cutoff : Nat := 2 ^ 63
      if !neg && un ≥ cutoff then ((cutoff : Int) - 1, some .ErrRange)
      else if neg && un > cutoff then (-(cutoff : Int), some .ErrRange)
      else if neg then (-(un : Int), none) else ((un : Int), none)

/-! The reading of "base-10 text of a signed 64-bit value" that the claims about
path identities are stated against, written independently of the parser. -/

/-- A decimal digit. -/
def IsDigit (c : Char) : Prop := '0' ≤ c ∧ c ≤ '9'

/-- The number a run of decimal digits denotes, continuing from `n`. -/
def decimalValueFrom (digits : List Char) (n : Nat) : Nat :=
  digits.foldl (fun acc c => acc * 10 + (c.toNat - '0'.toNat)) n

/-- The number a run of decimal digits denotes. -/
def decimalValue (digits : List Char) : Nat := decimalValueFrom digits 0

/-- The text `s` is base-10 text of the integer `v`: an optional sign, then one or
more decimal digits that denote the magnitude of `v`. -/
def IsBase10Text (s : String) (v : Int) : Prop :=
  ∃ digits : List Char, digits ≠ [] ∧ (∀ c ∈ digits, IsDigit c) ∧
    ((s.data = digits ∧ v = (decimalValue digits : Int)) ∨
      (s.data = '+' :: digits ∧ v = (decimalValue digits : Int)) ∨
      (s.data = '-' :: digits ∧ v = -(decimalValue digits : Int)))

/-- The text `s` is base-10 text of a value in the signed 64-bit range. -/
def IsInt64Text (s : String) : Prop :=
  ∃ v : Int, IsBase10Text s v ∧ -(2 : Int) ^ 63 ≤ v ∧ v < (2 : Int) ^ 63

end strconv

/-! ## The response recorder and http.Error -/

namespace http

/-- A header map, as a list of key/value pairs with at most one pair per key. -/
abbrev Header := List (String × String)

/-- `Header.Set`: replaces the value under the key. -/
def Header.Set (h : Header) (k v : String) : Header :=
  (k, v) :: h.filter (fun kv => kv.1 != k)

/-- `Header.Del`: removes the key. -/
def Header.Del (h : Header) (k : String) : Header :=
  h.filter (fun kv => kv.1 != k)

/-- `Header.Get`: the value under the key, or the empty string. -/
def Header.Get (h : Header) (k : String) : String :=
  match h.lookup k with
  | some v => v
  | none => ""

/-- The response recorder of net/http/httptest: the live header map, the status
code, the body written so far, whether the header went out, and the snapshot of
the header map taken when it did (the headers as sent). Every handler of this
service sets Content-Type before its first write, so content sniffing never
runs and is left out. -/
structure ResponseWriter where
  HeaderMap : Header
  Code : Nat
  Body : String
  wroteHeader : Bool
  snapHeader : Header
  deriving DecidableEq, Repr

/-- `httptest.NewRecorder()`. -/
def NewRecorder : ResponseWriter :=
  { HeaderMap := [], Code := 200, Body := "", wroteHeader := false, snapHeader := [] }

/-- `w.Header().Set(k, v)`. -/
def ResponseWriter.SetHeader (w : ResponseWriter) (k v : String) : ResponseWriter :=
  { w with HeaderMap := Header.Set w.HeaderMap k v }

/-- `w.Header().Del(k)`. -/
def ResponseWriter.DelHeader (w : ResponseWriter) (k : String) : ResponseWriter :=
  { w with HeaderMap := Header.Del w.HeaderMap k }

/-- `w.WriteHeader(code)`: the first call fixes the status and the headers sent;
later calls change nothing. -/
def ResponseWriter.WriteHeader (w : ResponseWriter) (code : Nat) : ResponseWriter :=
  if w.wroteHeader then w
  else { w with Code := code, wroteHeader := true, snapHeader := w.HeaderMap }

/-- `w.Write(b)`: sends the header with status 200 if none went out yet, then
appends to the body. -/
def ResponseWriter.Write (w : ResponseWriter) (b : String) : ResponseWriter :=
  let w1 := w.WriteHeader 200
  { w1 with Body := w1.Body ++ b }

def StatusOK : Nat := 200
def StatusCreated : Nat := 201
def StatusNoContent : Nat := 204
def StatusBadRequest : Nat := 400
def StatusNotFound : Nat := 404
def StatusInternalServerError : Nat := 500

/-- `http.Error(w, error, code)` of net/http: drops Content-Length, resets
Content-Type to plain text, sets X-Content-Type-Options, writes the status and
then the message followed by a newline. -/
def Error (w : ResponseWriter) (error : String) (code : Nat) : ResponseWriter :=
  let w := w.DelHeader "Content-Length"
  let w := w.SetHeader "Content-Type" "text/plain; charset=utf-8"
  let w := w.SetHeader "X-Content-Type-Options" "nosniff"
  let w := w.WriteHeader code
  w.Write (error ++ "\n")

/-- The part of `*http.Request` the handlers read: the context, the path
wildcards and the body. -/
structure Request where
  ctx : Context
  pathValues : List (String × String)
  Body : String
  deriving DecidableEq, Repr

/-- `r.PathValue(name)`: the value of the wildcard, or the empty string. -/
def Request.PathValue (r : Request) (name : String) : String :=
  match r.pathValues.lookup name with
  | some v => v
  | none => ""

end http

/-! ## The use cases (internal/usecase/author) -/

namespace usecase

open author

/-- ListAuthorsUseCase retrieves all authors. -/
structure ListAuthorsUseCase (σ : Type) where
  repo : Repository σ

/-- GetAuthorUseCase retrieves a single author by ID. -/
structure GetAuthorUseCase (σ : Type) where
  repo : Repository σ

/-- CreateAuthorUseCase creates a new author. -/
structure CreateAuthorUseCase (σ : Type) where
  repo : Repository σ

/-- UpdateAuthorUseCase updates an existing author. -/
structure UpdateAuthorUseCase (σ : Type) where
  repo : Repository σ

/-- DeleteAuthorUseCase deletes an author. -/
structure DeleteAuthorUseCase (σ : Type) where
  repo : Repository σ

def NewListAuthorsUseCase {σ : Type} (repo : Repository σ) : ListAuthorsUseCase σ :=
  { repo := repo }

def NewGetAuthorUseCase {σ : Type} (repo : Repository σ) : GetAuthorUseCase σ :=
  { repo := repo }

def NewCreateAuthorUseCase {σ : Type} (repo : Repository σ) : CreateAuthorUseCase σ :=
  { repo := repo }

def NewUpdateAuthorUseCase {σ : Type} (repo : Repository σ) : UpdateAuthorUseCase σ :=
  { repo := repo }

def NewDeleteAuthorUseCase {σ : Type} (repo : Repository σ) : DeleteAuthorUseCase σ :=
  { repo := repo }

/-- Execute retrieves all authors. -/
def ListAuthorsUseCase.Execute {σ : Type} (u : ListAuthorsUseCase σ) (ctx : Context) :
    σ → (List Author × Option Error) × σ :=
  u.repo.ListAuthors ctx

/-- Execute retrieves a single author by ID. -/
def GetAuthorUseCase.Execute {σ : Type} (u : GetAuthorUseCase σ) (ctx : Context) (id : Int) :
    σ → (Option Author × Option Error) × σ :=
  u.repo.GetAuthor ctx id

/-- Execute creates a new author. -/
def CreateAuthorUseCase.Execute {σ : Type} (u : CreateAuthorUseCase σ) (ctx : Context)
    (params : CreateAuthorParams) : σ → (Option Author × Option Error) × σ :=
  u.repo.CreateAuthor ctx params

/-- Execute updates an author. -/
def UpdateAuthorUseCase.Execute {σ : Type} (u : UpdateAuthorUseCase σ) (ctx : Context)
    (params : UpdateAuthorParams) : σ → Option Error × σ :=
  u.repo.UpdateAuthor ctx params

/-- Execute deletes an author by ID. -/
def DeleteAuthorUseCase.Execute {σ : Type} (u : DeleteAuthorUseCase σ) (ctx : Context) (id : Int) :
    σ → Option Error × σ :=
  u.repo.DeleteAuthor ctx id

end usecase

/-! ## The transport handler (internal/api/handler/author.go) -/

namespace handler

open author usecase http

/-- The calls the handlers make into encoding/json (and, through it, into the
JSON methods of pgtype.Text), taken as parameters: decoding a request body into
each parameter shape (`none` is a decode error) and encoding an author pointer
(`none` is nil) or a slice of authors. -/
structure JSON where
  decodeCreate : String → Option CreateAuthorParams
  decodeUpdate : String → Option UpdateAuthorParams
  encodeAuthor : Option Author → String
  encodeAuthors : List Author → String

/-- `json.NewEncoder(w).Encode(v)`: writes the encoding followed by a newline. -/
def encodeTo (w : ResponseWriter) (encoded : String) : ResponseWriter :=
  w.Write (encoded ++ "\n")

/-- AuthorHandler handles HTTP requests for author operations. -/
structure AuthorHandler (σ : Type) where
  listUC : ListAuthorsUseCase σ
  getUC : GetAuthorUseCase σ
  createUC : CreateAuthorUseCase σ
  updateUC : UpdateAuthorUseCase σ
  deleteUC : DeleteAuthorUseCase σ

/-- NewAuthorHandler creates a new AuthorHandler. -/
def NewAuthorHandler {σ : Type} (listUC : ListAuthorsUseCase σ) (getUC : GetAuthorUseCase σ)
    (createUC : CreateAuthorUseCase σ) (updateUC : UpdateAuthorUseCase σ)
    (deleteUC : DeleteAuthorUseCase σ) : AuthorHandler σ :=
  { listUC := listUC, getUC := getUC, createUC := createUC, updateUC := updateUC,
    deleteUC := deleteUC }

/-- ListAuthors handles GET /authors. -/
def AuthorHandler.ListAuthors {σ : Type} (h : AuthorHandler σ) (j : JSON) (w : ResponseWriter)
    (r : Request) (s : σ) : ResponseWriter × σ :=
  let w := w.SetHeader "Content-Type" "application/json"
  match h.listUC.Execute r.ctx s with
  | ((_, some _), s1) =>
    (http.Error w "\x7b\"error\":\"failed to list authors\"\x7d" StatusInternalServerError, s1)
  | ((authors, none), s1) => (encodeTo w (j.encodeAuthors authors), s1)

/-- GetAuthor handles GET /authors/{id}. -/
def AuthorHandler.GetAuthor {σ : Type} (h : AuthorHandler σ) (j : JSON) (w : ResponseWriter)
    (r : Request) (s : σ) : ResponseWriter × σ :=
  let w := w.SetHeader "Content-Type" "application/json"
  match strconv.ParseInt (r.PathValue "id") with
  | (_, some _) => (http.Error w "\x7b\"error\":\"invalid author id\"\x7d" StatusBadRequest, s)
  | (id, none) =>
    match h.getUC.Execute r.ctx id s with
    | ((_, some _), s1) =>
      (http.Error w "\x7b\"error\":\"author not found\"\x7d" StatusNotFound, s1)
    | ((a, none), s1) => (encodeTo w (j.encodeAuthor a), s1)

/-- CreateAuthor handles POST /authors. -/
def AuthorHandler.CreateAuthor {σ : Type} (h : AuthorHandler σ) (j : JSON) (w : ResponseWriter)
    (r : Request) (s : σ) : ResponseWriter × σ :=
  let w := w.SetHeader "Content-Type" "application/json"
  match j.decodeCreate r.Body with
  | none => (http.Error w "\x7b\"error\":\"invalid request payload\"\x7d" StatusBadRequest, s)
  | some params =>
    match h.createUC.Execute r.ctx params s with
    | ((_, some _), s1) =>
      (http.Error w "\x7b\"error\":\"failed to create author\"\x7d" StatusInternalServerError, s1)
    | ((created, none), s1) =>
      let w := w.WriteHeader StatusCreated
      (encodeTo w (j.encodeAuthor created), s1)

/-- UpdateAuthor handles PUT /authors/{id}. -/
def AuthorHandler.UpdateAuthor {σ : Type} (h : AuthorHandler σ) (j : JSON) (w : ResponseWriter)
    (r : Request) (s : σ) : ResponseWriter × σ :=
  let w := w.SetHeader "Content-Type" "application/json"
  match strconv.ParseInt (r.PathValue "id") with
  | (_, some _) => (http.Error w "\x7b\"error\":\"invalid author id\"\x7d" StatusBadRequest, s)
  | (id, none) =>
    match j.decodeUpdate r.Body with
    | none => (http.Error w "\x7b\"error\":\"invalid request payload\"\x7d" StatusBadRequest, s)
    | some params =>
      let params := { params with ID := id }
      match h.updateUC.Execute r.ctx params s with
      | (some _, s1) =>
        (http.Error w "\x7b\"error\":\"failed to update author\"\x7d" StatusInternalServerError, s1)
      | (none, s1) => (w.WriteHeader StatusNoContent, s1)

/-- DeleteAuthor handles DELETE /authors/{id}. -/
def AuthorHandler.DeleteAuthor {σ : Type} (h : AuthorHandler σ) (w : ResponseWriter)
    (r : Request) (s : σ) : ResponseWriter × σ :=
  let w := w.SetHeader "Content-Type" "application/json"
  match strconv.ParseInt (r.PathValue "id") with
  | (_, some _) => (http.Error w "\x7b\"error\":\"invalid author id\"\x7d" StatusBadRequest, s)
  | (id, none) =>
    match h.deleteUC.Execute r.ctx id s with
    | (some _, s1) =>
      (http.Error w "\x7b\"error\":\"failed to delete author\"\x7d" StatusInternalServerError, s1)
    | (none, s1) => (w.WriteHeader StatusNoContent, s1)

/-- The wiring of `main` and of the tests: one repository behind all five use
cases. -/
def wire {σ : Type} (repo : Repository σ) : AuthorHandler σ :=
  NewAuthorHandler (NewListAuthorsUseCase repo) (NewGetAuthorUseCase repo)
    (NewCreateAuthorUseCase repo) (NewUpdateAuthorUseCase repo) (NewDeleteAuthorUseCase repo)

end handler

/-! ## The in-memory reference repository (the mock of the test files)

`mockRepository` of internal/usecase/author/list_test.go and
`mockRepoForHandler` of internal/api/handler/author_test.go are the same code
under two names. -/

namespace mock

open author

/-- The mock's state: the stored authors and the error to inject, if any. -/
structure mockRepository where
  authors : List Author
  err : Option Error
  deriving DecidableEq, Repr

/-- The same type under the name the handler tests use. -/
abbrev mockRepoForHandler := mockRepository

/-- The loop of `GetAuthor`: the first author with the identity, if any. -/
def getLoop : List Author → Int → Option Author
  | [], _ => none
  | a :: rest, id => if a.ID = id then some a else getLoop rest id

/-- The loop of `UpdateAuthor`: overwrites name and biography of the first author
with the identity and stops. -/
def updateLoop : List Author → UpdateAuthorParams → List Author
  | [], _ => []
  | a :: rest, params =>
    if a.ID = params.ID then { a with Name := params.Name, Bio := params.Bio } :: rest
    else a :: updateLoop rest params

/-- The loop of `DeleteAuthor`: cuts out the first author with the identity and
stops. -/
def deleteLoop : List Author → Int → List Author
  | [], _ => []
  | a :: rest, id => if a.ID = id then rest else a :: deleteLoop rest id

def mockRepository.GetAuthor (m : mockRepository) (_ctx : Context) (id : Int) :
    (Option Author × Option Error) × mockRepository :=
  match m.err with
  | some e => ((none, some e), m)
  | none => ((getLoop m.authors id, none), m)

def mockRepository.ListAuthors (m : mockRepository) (_ctx : Context) :
    (List Author × Option Error) × mockRepository :=
  match m.err with
  | some e => (([], some e), m)
  | none => ((m.authors, none), m)

def mockRepository.CreateAuthor (m : mockRepository) (_ctx : Context)
    (params : CreateAuthorParams) : (Option Author × Option Error) × mockRepository :=
  match m.err with
  | some e => ((none, some e), m)
  | none =>
    let a : Author := { ID := 1, Name := params.Name, Bio := params.Bio }
    ((some a, none), { m with authors := m.authors ++ [a] })

def mockRepository.UpdateAuthor (m : mockRepository) (_ctx : Context)
    (params : UpdateAuthorParams) : Option Error × mockRepository :=
  match m.err with
  | some e => (some e, m)
  | none => (none, { m with authors := updateLoop m.authors params })

def mockRepository.DeleteAuthor (m : mockRepository) (_ctx : Context) (id : Int) :
    Option Error × mockRepository :=
  match m.err with
  | some e => (some e, m)
  | none => (none, { m with authors := deleteLoop m.authors id })

/-- The mock as an implementation of the Repository interface. -/
def repo : Repository mockRepository :=
  { GetAuthor := fun ctx id m => m.GetAuthor ctx id
    ListAuthors := fun ctx m => m.ListAuthors ctx
    CreateAuthor := fun ctx params m => m.CreateAuthor ctx params
    UpdateAuthor := fun ctx params m => m.UpdateAuthor ctx params
    DeleteAuthor := fun ctx id m => m.DeleteAuthor ctx id }

/-- The store of `setupHandler`: Alice under identity 1, no injected error. -/
def setupStore : mockRepository :=
  { authors := [{ ID := 1, Name := "Alice", Bio := { String := "Author 1", Valid := true } }]
    err := none }

/-- The handler of `setupHandler`. -/
def setupHandler : handler.AuthorHandler mockRepository :=
  handler.wire repo

end mock

/-! ## The persistence adapter (internal/infrastructure/repository/author.go)

The adapter sits on the generated query layer of package tutorial, which is
taken as a parameter: a record of the five query functions over the database
state `σ`. Its row and parameter types are read off the fields the adapter
uses. A query that returns a row returns it by value, so the only way the query
layer can report a failure, a missing row included, is its error. -/

namespace tutorial

/-- A row of the authors table, as the query layer returns it. -/
structure Author where
  ID : Int
  Name : String
  Bio : pgtype.Text
  deriving DecidableEq, Repr

/-- The parameters of the generated CreateAuthor query. -/
structure CreateAuthorParams where
  Name : String
  Bio : pgtype.Text
  deriving DecidableEq, Repr

/-- The parameters of the generated UpdateAuthor query. -/
structure UpdateAuthorParams where
  ID : Int
  Name : String
  Bio : pgtype.Text
  deriving DecidableEq, Repr

/-- The five generated query functions, as the adapter calls them. -/
structure Queries (σ : Type) where
  GetAuthor : Context → Int → σ → (Author × Option Error) × σ
  ListAuthors : Context → σ → (List Author × Option Error) × σ
  CreateAuthor : Context → CreateAuthorParams → σ → (Author × Option Error) × σ
  UpdateAuthor : Context → UpdateAuthorParams → σ → Option Error × σ
  DeleteAuthor : Context → Int → σ → Option Error × σ

end tutorial

namespace repository

open author

/-- AuthorRepository implements the author.Repository interface using PostgreSQL. -/
structure AuthorRepository (σ : Type) where
  queries : tutorial.Queries σ

/-- GetAuthor retrieves a single author by ID. -/
def AuthorRepository.GetAuthor {σ : Type} (r : AuthorRepository σ) (ctx : Context) (id : Int)
    (s : σ) : (Option Author × Option Error) × σ :=
  match r.queries.GetAuthor ctx id s with
  | ((_, some err), s1) => ((none, some err), s1)
  | ((a, none), s1) => ((some { ID := a.ID, Name := a.Name, Bio := a.Bio }, none), s1)

/-- ListAuthors retrieves all authors. -/
def AuthorRepository.ListAuthors {σ : Type} (r : AuthorRepository σ) (ctx : Context) (s : σ) :
    (List Author × Option Error) × σ :=
  match r.queries.ListAuthors ctx s with
  | ((_, some err), s1) => (([], some err), s1)
  | ((authors, none), s1) =>
    ((authors.map (fun a => { ID := a.ID, Name := a.Name, Bio := a.Bio }), none), s1)

/-- CreateAuthor creates a new author. -/
def AuthorRepository.CreateAuthor {σ : Type} (r : AuthorRepository σ) (ctx : Context)
    (params : CreateAuthorParams) (s : σ) : (Option Author × Option Error) × σ :=
  match r.queries.CreateAuthor ctx { Name := params.Name, Bio := params.Bio } s with
  | ((_, some err), s1) => ((none, some err), s1)
  | ((created, none), s1) =>
    ((some { ID := created.ID, Name := created.Name, Bio := created.Bio }, none), s1)

/-- UpdateAuthor updates an existing author. -/
def AuthorRepository.UpdateAuthor {σ : Type} (r : AuthorRepository σ) (ctx : Context)
    (params : UpdateAuthorParams) (s : σ) : Option Error × σ :=
  r.queries.UpdateAuthor ctx { ID := params.ID, Name := params.Name, Bio := params.Bio } s

/-- DeleteAuthor deletes an author by ID. -/
def AuthorRepository.DeleteAuthor {σ : Type} (r : AuthorRepository σ) (ctx : Context) (id : Int)
    (s : σ) : Option Error × σ :=
  r.queries.DeleteAuthor ctx id s

/-- The adapter as an implementation of the Repository interface. -/
def AuthorRepository.asRepository {σ : Type} (r : AuthorRepository σ) : Repository σ :=
  { GetAuthor := r.GetAuthor
    ListAuthors := r.ListAuthors
    CreateAuthor := r.CreateAuthor
    UpdateAuthor := r.UpdateAuthor
    DeleteAuthor := r.DeleteAuthor }

end repository

/-! ## Recording the calls that reach a repository -/

namespace author

/-- One call of a Repository method, with its arguments. -/
inductive Call where
  | GetAuthor (ctx : Context) (id : Int)
  | ListAuthors (ctx : Context)
  | CreateAuthor (ctx : Context) (params : CreateAuthorParams)
  | UpdateAuthor (ctx : Context) (params : UpdateAuthorParams)
  | DeleteAuthor (ctx : Context) (id : Int)
  deriving DecidableEq, Repr

/-- The repository `r` with a log in front of it: every method appends its call
to the log and then does what `r` does. -/
def traced {σ : Type} (r : Repository σ) : Repository (σ × List Call) :=
  { GetAuthor := fun ctx id s =>
      ((r.GetAuthor ctx id s.1).1, ((r.GetAuthor ctx id s.1).2, s.2 ++ [Call.GetAuthor ctx id]))
    ListAuthors := fun ctx s =>
      ((r.ListAuthors ctx s.1).1, ((r.ListAuthors ctx s.1).2, s.2 ++ [Call.ListAuthors ctx]))
    CreateAuthor := fun ctx params s =>
      ((r.CreateAuthor ctx params s.1).1,
        ((r.CreateAuthor ctx params s.1).2, s.2 ++ [Call.CreateAuthor ctx params]))
    UpdateAuthor := fun ctx params s =>
      ((r.UpdateAuthor ctx params s.1).1,
        ((r.UpdateAuthor ctx params s.1).2, s.2 ++ [Call.UpdateAuthor ctx params]))
    DeleteAuthor := fun ctx id s =>
      ((r.DeleteAuthor ctx id s.1).1, ((r.DeleteAuthor ctx id s.1).2, s.2 ++ [Call.DeleteAuthor ctx id])) }

end author

/-! ## Fixtures for concrete checks -/

namespace fixture

open author handler

/-- The text encoding/json gives a biography: null when absent, the quoted text
otherwise (for text that needs no escaping). -/
def encodeBio (b : pgtype.Text) : String :=
  if b.Valid then "\"" ++ b.String ++ "\"" else "null"

/-- The text encoding/json gives an author (for names and biographies that need
no escaping). -/
def encodeOne (a : Author) : String :=
  "\x7b\"ID\":" ++ toString a.ID ++ ",\"Name\":\"" ++ a.Name ++ "\",\"Bio\":" ++ encodeBio a.Bio
    ++ "\x7d"

/-- An instance of the JSON calls for the requests of the handler tests: it
decodes the two bodies those tests marshal, rejects every other body (among
them the text "invalid json" of TestCreateAuthor_InvalidPayload), and encodes
authors whose text needs no escaping. -/
def json : JSON :=
  { decodeCreate := fun body =>
      if body = "\x7b\"Name\":\"Charlie\",\"Bio\":\"New author\"\x7d" then
        some { Name := "Charlie", Bio := { String := "New author", Valid := true } }
      else none
    decodeUpdate := fun body =>
      if body = "\x7b\"ID\":1,\"Name\":\"Alice Updated\",\"Bio\":\"Updated\"\x7d" then
        some { ID := 1, Name := "Alice Updated", Bio := { String := "Updated", Valid := true } }
      else none
    encodeAuthor := fun a =>
      match a with
      | none => "null"
      | some a => encodeOne a
    encodeAuthors := fun l => "[" ++ String.intercalate "," (l.map encodeOne) ++ "]" }

/-- A request with the given path identity and body. -/
def request (id body : String) : http.Request :=
  { ctx := { key := 0 }, pathValues := [("id", id)], Body := body }

/-- A store with an injected error, for the concrete checks of the error paths. -/
def failingStore : mock.mockRepository :=
  { authors := [], err := some { msg := "connection refused" } }

/-- The error pgx reports when a query that expects a row finds none. -/
def ErrNoRows : Error := { msg := "no rows in result set" }

/-- A query layer over a table of rows (the state), whose GetAuthor reports a
missing row as the error `ErrNoRows`, with a zero row beside it. The other four
queries are not exercised and do nothing. -/
def tableQueries : tutorial.Queries (List tutorial.Author) :=
  { GetAuthor := fun _ id rows =>
      match rows.find? (fun a => a.ID == id) with
      | some a => ((a, none), rows)
      | none => (({ ID := 0, Name := "", Bio := { String := "", Valid := false } },
          some ErrNoRows), rows)
    ListAuthors := fun _ rows => ((rows, none), rows)
    CreateAuthor := fun _ params rows =>
      (({ ID := 0, Name := params.Name, Bio := params.Bio }, none), rows)
    UpdateAuthor := fun _ _ rows => (none, rows)
    DeleteAuthor := fun _ _ rows => (none, rows) }

/-- The same query layer, except that GetAuthor reports a missing row as a zero
row with no error. -/
def silentQueries : tutorial.Queries (List tutorial.Author) :=
  { tableQueries with
    GetAuthor := fun _ id rows =>
      match rows.find? (fun a => a.ID == id) with
      | some a => ((a, none), rows)
      | none => (({ ID := 0, Name := "", Bio := { String := "", Valid := false } }, none),
          rows) }

/-- A second store with an injected error: other authors, another error. -/
def timeoutStore : mock.mockRepository :=
  { authors := [{ ID := 7, Name := "Bob", Bio := { String := "", Valid := false } }]
    err := some { msg := "context deadline exceeded" } }

/-- The table with Alice under identity 1. -/
def aliceTable : List tutorial.Author :=
  [{ ID := 1, Name := "Alice", Bio := { String := "Author 1", Valid := true } }]

/-- The two authors of TestDeleteAuthorUseCase_Execute. -/
def aliceAndBob : List Author :=
  [{ ID := 1, Name := "Alice", Bio := { String := "Author 1", Valid := true } },
   { ID := 2, Name := "Bob", Bio := { String := "Author 2", Valid := true } }]

/-- The body TestCreateAuthor_Success marshals. -/
def createBody : String := "\x7b\"Name\":\"Charlie\",\"Bio\":\"New author\"\x7d"

/-- The body TestUpdateAuthor_Success marshals. -/
def updateBody : String := "\x7b\"ID\":1,\"Name\":\"Alice Updated\",\"Bio\":\"Updated\"\x7d"

end fixture

/-! ## Theorems -/

open author usecase handler http

/-! ### Shapes of results -/

theorem strconv.ParseInt_error_shape (s : String) (herr : (strconv.ParseInt s).2 ≠ none) :
    ∃ v e, strconv.ParseInt s = (v, some e) := by
  obtain ⟨e, hsome⟩ := Option.ne_none_iff_exists'.mp herr
  exact ⟨(strconv.ParseInt s).1, e, by rw [← hsome]⟩

/-! ### strconv.ParseInt against the independent reading -/

theorem strconv.le_decimalValueFrom (ds : List Char) (n : Nat) :
    n ≤ strconv.decimalValueFrom ds n := by
  induction ds generalizing n with
  | nil => simp [strconv.decimalValueFrom]
  | cons c cs ih =>
    have h := ih (n * 10 + (c.toNat - '0'.toNat))
    simp only [strconv.decimalValueFrom, List.foldl_cons] at h ⊢
    omega

/-- The digit loop succeeds only on digits, and then returns the number they
denote, which fits a uint64. -/
theorem strconv.parseUintLoop_ok (ds : List Char) (n v : Nat) (hn : n ≤ strconv.maxUint64)
    (h : strconv.parseUintLoop ds n = (v, none)) :
    (∀ c ∈ ds, strconv.IsDigit c) ∧ v = strconv.decimalValueFrom ds n ∧
      v ≤ strconv.maxUint64 := by
  induction ds generalizing n with
  | nil =>
    simp only [strconv.parseUintLoop, Prod.mk.injEq, and_true] at h
    subst h
    simp [strconv.decimalValueFrom, hn]
  | cons c cs ih =>
    unfold strconv.parseUintLoop at h
    by_cases hd : (decide ('0' ≤ c) && decide (c ≤ '9')) = true
    · rw [if_pos hd] at h
      by_cases h1 : n ≥ strconv.maxUint64 / 10 + 1
      · rw [if_pos h1] at h
        simp at h
      · rw [if_neg h1] at h
        by_cases h2 : n * 10 + (c.toNat - '0'.toNat) > strconv.maxUint64
        · simp only [h2, if_true] at h
          simp at h
        · simp only [h2, if_false] at h
          obtain ⟨hall, hv, hle⟩ := ih _ (by omega) h
          refine ⟨?_, ?_, hle⟩
          · intro x hx
            rcases List.mem_cons.mp hx with rfl | hx
            · simpa [strconv.IsDigit] using hd
            · exact hall x hx
          · simpa [strconv.decimalValueFrom] using hv
    · rw [if_neg hd] at h
      simp at h

/-- The digit loop succeeds on every run of digits whose number fits a uint64. -/
theorem strconv.parseUintLoop_complete (ds : List Char) (n : Nat)
    (hall : ∀ c ∈ ds, strconv.IsDigit c)
    (hle : strconv.decimalValueFrom ds n ≤ strconv.maxUint64) :
    strconv.parseUintLoop ds n = (strconv.decimalValueFrom ds n, none) := by
  induction ds generalizing n with
  | nil => simp [strconv.parseUintLoop, strconv.decimalValueFrom]
  | cons c cs ih =>
    have hc : strconv.IsDigit c := hall c (List.mem_cons_self _ _)
    have hd : (decide ('0' ≤ c) && decide (c ≤ '9')) = true := by
      simpa [strconv.IsDigit] using hc
    have hstep : strconv.decimalValueFrom (c :: cs) n
        = strconv.decimalValueFrom cs (n * 10 + (c.toNat - '0'.toNat)) := by
      simp [strconv.decimalValueFrom]
    rw [hstep] at hle ⊢
    have hmono := strconv.le_decimalValueFrom cs (n * 10 + (c.toNat - '0'.toNat))
    have h1 : ¬ n ≥ strconv.maxUint64 / 10 + 1 := by omega
    have h2 : ¬ n * 10 + (c.toNat - '0'.toNat) > strconv.maxUint64 := by omega
    unfold strconv.parseUintLoop
    rw [if_pos hd, if_neg h1]
    simp only [h2, if_false]
    exact ih _ (fun x hx => hall x (List.mem_cons_of_mem _ hx)) hle

/-- A range error of the digit loop comes with the value `maxUint64`. -/
theorem strconv.parseUintLoop_range (ds : List Char) (n un : Nat)
    (h : strconv.parseUintLoop ds n = (un, some strconv.NumError.ErrRange)) :
    un = strconv.maxUint64 := by
  induction ds generalizing n with
  | nil => simp [strconv.parseUintLoop] at h
  | cons c cs ih =>
    unfold strconv.parseUintLoop at h
    by_cases hd : (decide ('0' ≤ c) && decide (c ≤ '9')) = true
    · rw [if_pos hd] at h
      by_cases h1 : n ≥ strconv.maxUint64 / 10 + 1
      · rw [if_pos h1] at h
        simp only [Prod.mk.injEq, and_true] at h
        exact h.symm
      · rw [if_neg h1] at h
        by_cases h2 : n * 10 + (c.toNat - '0'.toNat) > strconv.maxUint64
        · simp only [h2, if_true, Prod.mk.injEq, and_true] at h
          exact h.symm
        · simp only [h2, if_false] at h
          exact ih _ h
    · rw [if_neg hd] at h
      simp at h

theorem strconv.ParseUint_ok (ds : List Char) (un : Nat)
    (h : strconv.ParseUint ds = (un, none)) :
    ds ≠ [] ∧ (∀ c ∈ ds, strconv.IsDigit c) ∧ un = strconv.decimalValue ds ∧
      un ≤ strconv.maxUint64 := by
  unfold strconv.ParseUint at h
  by_cases hnil : ds = []
  · rw [if_pos hnil] at h
    simp at h
  · rw [if_neg hnil] at h
    obtain ⟨hall, hv, hle⟩ := strconv.parseUintLoop_ok ds 0 un (Nat.zero_le _) h
    exact ⟨hnil, hall, hv, hle⟩

theorem strconv.ParseUint_complete (ds : List Char) (hnil : ds ≠ [])
    (hall : ∀ c ∈ ds, strconv.IsDigit c)
    (hle : strconv.decimalValue ds ≤ strconv.maxUint64) :
    strconv.ParseUint ds = (strconv.decimalValue ds, none) := by
  unfold strconv.ParseUint
  rw [if_neg hnil]
  exact strconv.parseUintLoop_complete ds 0 hall hle

theorem strconv.ParseUint_range (ds : List Char) (un : Nat)
    (h : strconv.ParseUint ds = (un, some strconv.NumError.ErrRange)) :
    un = strconv.maxUint64 := by
  unfold strconv.ParseUint at h
  by_cases hnil : ds = []
  · rw [if_pos hnil] at h
    simp at h
  · rw [if_neg hnil] at h
    exact strconv.parseUintLoop_range ds 0 un h

/-- What `ParseInt` does after the sign is taken off, as a function of the sign
and of the result of `ParseUint`. -/
theorem strconv.ParseInt_cons (s : String) (c : Char) (cs : List Char)
    (hs : s.data = c :: cs) :
    strconv.ParseInt s =
      (match strconv.ParseUint (if c == '+' || c == '-' then cs else c :: cs) with
      | (_, some .ErrSyntax) => (0, some .ErrSyntax)
      | (un, _) =>
        if !(c == '-') && un ≥ 2 ^ 63 then (((2 ^ 63 : Nat) : Int) - 1, some .ErrRange)
        else if (c == '-') && un > 2 ^ 63 then (-((2 ^ 63 : Nat) : Int), some .ErrRange)
        else if (c == '-') then (-(un : Int), none) else ((un : Int), none)) := by
  unfold strconv.ParseInt
  rw [hs]

theorem strconv.not_isDigit_plus : ¬ strconv.IsDigit '+' := by
  unfold strconv.IsDigit
  decide

theorem strconv.not_isDigit_minus : ¬ strconv.IsDigit '-' := by
  unfold strconv.IsDigit
  decide

/-- Soundness of `ParseInt`: a successful parse means the text is base-10 text of
the value returned, and the value is in the signed 64-bit range. -/
theorem strconv.ParseInt_ok (s : String) (v : Int) (h : strconv.ParseInt s = (v, none)) :
    strconv.IsBase10Text s v ∧ -(2 : Int) ^ 63 ≤ v ∧ v < (2 : Int) ^ 63 := by
  rcases hs : s.data with _ | ⟨c, cs⟩
  · unfold strconv.ParseInt at h
    rw [hs] at h
    simp at h
  · rw [strconv.ParseInt_cons s c cs hs] at h
    rcases hu : strconv.ParseUint (if c == '+' || c == '-' then cs else c :: cs) with ⟨un, err⟩
    rw [hu] at h
    cases err with
    | some e =>
      cases e with
      | ErrSyntax => simp at h
      | ErrRange =>
        have hmax := strconv.ParseUint_range _ _ hu
        subst hmax
        by_cases hm : c = '-' <;> simp [hm, strconv.maxUint64] at h
    | none =>
      obtain ⟨hnil, hall, hv, hle⟩ := strconv.ParseUint_ok _ _ hu
      simp only at h
      by_cases hm : c = '-'
      · subst hm
        simp only [beq_self_eq_true, Bool.or_true, if_true] at hu hnil hall hv
        simp only [beq_self_eq_true, Bool.not_true, Bool.false_and, Bool.true_and,
          decide_eq_true_eq, if_true, Bool.false_eq_true, if_false] at h
        split_ifs at h with hgt
        · simp at h
        · simp only [Prod.mk.injEq, and_true] at h
          refine ⟨⟨cs, hnil, hall, Or.inr (Or.inr ⟨hs, ?_⟩)⟩, ?_, ?_⟩
          · rw [← h, hv]
          · rw [← h]
            omega
          · rw [← h]
            omega
      · have hm2 : (c == '-') = false := by simpa using hm
        simp only [hm2, Bool.not_false, Bool.true_and, Bool.false_and, decide_eq_true_eq,
          Bool.false_eq_true, if_false] at h
        split_ifs at h with hge
        · simp at h
        · simp only [Prod.mk.injEq, and_true] at h
          by_cases hp : c = '+'
          · subst hp
            simp only [beq_self_eq_true, Bool.true_or, if_true] at hu hnil hall hv
            refine ⟨⟨cs, hnil, hall, Or.inr (Or.inl ⟨hs, ?_⟩)⟩, ?_, ?_⟩
            · rw [← h, hv]
            · rw [← h]
              omega
            · rw [← h]
              omega
          · have hp2 : (c == '+') = false := by simpa using hp
            simp only [hp2, hm2, Bool.or_false, Bool.false_eq_true, if_false] at hu hnil hall hv
            refine ⟨⟨c :: cs, hnil, hall, Or.inl ⟨hs, ?_⟩⟩, ?_, ?_⟩
            · rw [← h, hv]
            · rw [← h]
              omega
            · rw [← h]
              omega

/-- Completeness of `ParseInt`: base-10 text of a value in the signed 64-bit
range parses, to that value. -/
theorem strconv.ParseInt_complete (s : String) (v : Int) (ht : strconv.IsBase10Text s v)
    (hlo : -(2 : Int) ^ 63 ≤ v) (hhi : v < (2 : Int) ^ 63) :
    strconv.ParseInt s = (v, none) := by
  obtain ⟨digits, hnil, hall, hcase⟩ := ht
  have hmaxv : strconv.maxUint64 = 18446744073709551615 := by
    unfold strconv.maxUint64
    norm_num
  rcases hcase with ⟨hs, hv⟩ | ⟨hs, hv⟩ | ⟨hs, hv⟩
  · rcases digits with _ | ⟨c, cs⟩
    · exact absurd rfl hnil
    · have hc : strconv.IsDigit c := hall c (List.mem_cons_self _ _)
      have hp : (c == '+') = false := by
        rw [beq_eq_false_iff_ne]
        rintro rfl
        exact strconv.not_isDigit_plus hc
      have hm : (c == '-') = false := by
        rw [beq_eq_false_iff_ne]
        rintro rfl
        exact strconv.not_isDigit_minus hc
      have hu := strconv.ParseUint_complete (c :: cs) hnil hall (by omega)
      rw [strconv.ParseInt_cons s c cs hs]
      simp only [hp, hm, Bool.or_false, Bool.false_eq_true, if_false, hu, Bool.not_false,
        Bool.true_and, Bool.false_and, decide_eq_true_eq]
      rw [if_neg (by omega), hv]
  · have hp : ('+' == '-') = false := by decide
    have hu := strconv.ParseUint_complete digits hnil hall (by omega)
    rw [strconv.ParseInt_cons s '+' digits hs]
    simp only [beq_self_eq_true, Bool.true_or, if_true, hu, hp, Bool.not_false, Bool.true_and,
      Bool.false_and, decide_eq_true_eq, Bool.false_eq_true, if_false]
    rw [if_neg (by omega), hv]
  · have hu := strconv.ParseUint_complete digits hnil hall (by omega)
    rw [strconv.ParseInt_cons s '-' digits hs]
    simp only [beq_self_eq_true, Bool.or_true, if_true, hu, Bool.not_true, Bool.true_and,
      Bool.false_and, decide_eq_true_eq, Bool.false_eq_true, if_false]
    rw [if_neg (by omega), hv]

/-- `ParseInt` fails exactly on the texts that are not base-10 text of a value in
the signed 64-bit range. -/
theorem strconv.ParseInt_fails_iff (s : String) :
    (strconv.ParseInt s).2 ≠ none ↔ ¬ strconv.IsInt64Text s := by
  constructor
  · rintro herr ⟨v, ht, hlo, hhi⟩
    rw [strconv.ParseInt_complete s v ht hlo hhi] at herr
    exact herr rfl
  · intro hnot herr
    apply hnot
    refine ⟨(strconv.ParseInt s).1, ?_⟩
    exact strconv.ParseInt_ok s _ (by rw [← herr])

/-! ### The response recorder -/

theorem Header.Get_Set (hm : Header) (k v : String) : Header.Get (Header.Set hm k v) k = v := by
  simp [Header.Set, Header.Get, List.lookup]

theorem Header.Get_contentType_after_nosniff (hm : Header) (v : String) :
    Header.Get (Header.Set (Header.Set hm "Content-Type" v) "X-Content-Type-Options" "nosniff")
      "Content-Type" = v := by
  have h1 : ("Content-Type" == "X-Content-Type-Options") = false := by decide
  have h2 : ("Content-Type" != "X-Content-Type-Options") = true := by decide
  simp only [Header.Set, Header.Get, List.lookup, h1, List.filter, h2, beq_self_eq_true]

/-- What http.Error leaves in a recorder whose header has not gone out: the given
status, the message and a newline appended to the body, and a sent Content-Type
of plain text. -/
theorem Error_fresh (w : ResponseWriter) (msg : String) (code : Nat)
    (hw : w.wroteHeader = false) :
    (http.Error w msg code).Code = code ∧
      (http.Error w msg code).Body = w.Body ++ (msg ++ "\n") ∧
      (http.Error w msg code).snapHeader.Get "Content-Type" = "text/plain; charset=utf-8" := by
  simp [http.Error, ResponseWriter.Write, ResponseWriter.WriteHeader,
    ResponseWriter.SetHeader, ResponseWriter.DelHeader, hw,
    Header.Get_contentType_after_nosniff]

/-- The recorder every handler starts from: fresh, with the JSON content type set. -/
theorem jsonRecorder_fresh :
    (NewRecorder.SetHeader "Content-Type" "application/json").wroteHeader = false ∧
      (NewRecorder.SetHeader "Content-Type" "application/json").Body = "" := by
  simp [ResponseWriter.SetHeader, NewRecorder]

theorem Error_jsonRecorder (msg : String) (code : Nat) :
    (http.Error (NewRecorder.SetHeader "Content-Type" "application/json") msg code).Code = code ∧
      (http.Error (NewRecorder.SetHeader "Content-Type" "application/json") msg code).Body
        = msg ++ "\n" ∧
      (http.Error (NewRecorder.SetHeader "Content-Type" "application/json") msg
        code).snapHeader.Get "Content-Type" = "text/plain; charset=utf-8" := by
  have h := Error_fresh (NewRecorder.SetHeader "Content-Type" "application/json") msg code
    jsonRecorder_fresh.1
  rw [jsonRecorder_fresh.2] at h
  simpa using h

/-! ### The loops of the in-memory repository -/

theorem mock.getLoop_append (l : List Author) (a : Author) (id : Int) :
    mock.getLoop (l ++ [a]) id =
      (match mock.getLoop l id with
      | some x => some x
      | none => if a.ID = id then some a else none) := by
  induction l with
  | nil => simp [mock.getLoop]
  | cons b rest ih =>
    by_cases hb : b.ID = id
    · simp [mock.getLoop, hb]
    · simp [mock.getLoop, hb, ih]

theorem mock.getLoop_none_of_absent (l : List Author) (id : Int)
    (habs : ∀ a ∈ l, a.ID ≠ id) : mock.getLoop l id = none := by
  induction l with
  | nil => rfl
  | cons b rest ih =>
    have hb : b.ID ≠ id := habs b (List.mem_cons_self _ _)
    simp only [mock.getLoop, hb, if_false]
    exact ih (fun a ha => habs a (List.mem_cons_of_mem _ ha))

theorem mock.updateLoop_of_absent (l : List Author) (params : UpdateAuthorParams)
    (habs : ∀ a ∈ l, a.ID ≠ params.ID) : mock.updateLoop l params = l := by
  induction l with
  | nil => rfl
  | cons b rest ih =>
    have hb : b.ID ≠ params.ID := habs b (List.mem_cons_self _ _)
    simp only [mock.updateLoop, hb, if_false]
    rw [ih (fun a ha => habs a (List.mem_cons_of_mem _ ha))]

theorem mock.deleteLoop_of_absent (l : List Author) (id : Int)
    (habs : ∀ a ∈ l, a.ID ≠ id) : mock.deleteLoop l id = l := by
  induction l with
  | nil => rfl
  | cons b rest ih =>
    have hb : b.ID ≠ id := habs b (List.mem_cons_self _ _)
    simp only [mock.deleteLoop, hb, if_false]
    rw [ih (fun a ha => habs a (List.mem_cons_of_mem _ ha))]

/-- A list holding an author with the identity splits at the first such author. -/
theorem mock.split_at_first (l : List Author) (id : Int) (hmem : ∃ a ∈ l, a.ID = id) :
    ∃ (pre : List Author) (a : Author) (post : List Author),
      l = pre ++ a :: post ∧ a.ID = id ∧ ∀ b ∈ pre, b.ID ≠ id := by
  induction l with
  | nil =>
    obtain ⟨a, ha, _⟩ := hmem
    simp at ha
  | cons b rest ih =>
    by_cases hb : b.ID = id
    · exact ⟨[], b, rest, rfl, hb, by simp⟩
    · obtain ⟨a, ha, haid⟩ := hmem
      rcases List.mem_cons.mp ha with rfl | ha
      · exact absurd haid hb
      · obtain ⟨pre, x, post, hl, hx, hpre⟩ := ih ⟨a, ha, haid⟩
        refine ⟨b :: pre, x, post, by rw [hl]; rfl, hx, ?_⟩
        intro c hc
        rcases List.mem_cons.mp hc with rfl | hc
        · exact hb
        · exact hpre c hc

theorem mock.getLoop_at_first (pre post : List Author) (a : Author) (id : Int)
    (ha : a.ID = id) (hpre : ∀ b ∈ pre, b.ID ≠ id) :
    mock.getLoop (pre ++ a :: post) id = some a := by
  induction pre with
  | nil => simp [mock.getLoop, ha]
  | cons b rest ih =>
    have hb : b.ID ≠ id := hpre b (List.mem_cons_self _ _)
    simp only [List.cons_append, mock.getLoop, hb, if_false]
    exact ih (fun c hc => hpre c (List.mem_cons_of_mem _ hc))

theorem mock.deleteLoop_at_first (pre post : List Author) (a : Author) (id : Int)
    (ha : a.ID = id) (hpre : ∀ b ∈ pre, b.ID ≠ id) :
    mock.deleteLoop (pre ++ a :: post) id = pre ++ post := by
  induction pre with
  | nil => simp [mock.deleteLoop, ha]
  | cons b rest ih =>
    have hb : b.ID ≠ id := hpre b (List.mem_cons_self _ _)
    have hrest := ih (fun c hc => hpre c (List.mem_cons_of_mem _ hc))
    simp only [List.cons_append, mock.deleteLoop, hb, if_false]
    exact congrArg (List.cons b) hrest

theorem mock.updateLoop_at_first (pre post : List Author) (a : Author)
    (params : UpdateAuthorParams) (ha : a.ID = params.ID)
    (hpre : ∀ b ∈ pre, b.ID ≠ params.ID) :
    mock.updateLoop (pre ++ a :: post) params
      = pre ++ { ID := a.ID, Name := params.Name, Bio := params.Bio } :: post := by
  induction pre with
  | nil => simp [mock.updateLoop, ha]
  | cons b rest ih =>
    have hb : b.ID ≠ params.ID := hpre b (List.mem_cons_self _ _)
    have hrest := ih (fun c hc => hpre c (List.mem_cons_of_mem _ hc))
    simp only [List.cons_append, mock.updateLoop, hb, if_false]
    exact congrArg (List.cons b) hrest

/-! ### The claims -/

/-- C1: when the path identity parses and the repository's GetAuthor returns a nil
author with a nil error, the GetAuthor handler does not answer 404: the error
check passes, the nil author is encoded, and the response is 200 with the
encoding of nil as body and the JSON content type. -/
theorem GetAuthor_absent_responds_200 {σ : Type} (h : AuthorHandler σ) (j : JSON)
    (r : Request) (s : σ) (id : Int)
    (hid : strconv.ParseInt (r.PathValue "id") = (id, none))
    (habs : (h.getUC.repo.GetAuthor r.ctx id s).1 = (none, none)) :
    (h.GetAuthor j NewRecorder r s).1.Code = 200 ∧
      (h.GetAuthor j NewRecorder r s).1.Code ≠ StatusNotFound ∧
      (h.GetAuthor j NewRecorder r s).1.Body = j.encodeAuthor none ++ "\n" := by
  have hex : h.getUC.Execute r.ctx id s =
      ((none, none), (h.getUC.repo.GetAuthor r.ctx id s).2) := by
    unfold GetAuthorUseCase.Execute
    rw [← habs]
  simp [AuthorHandler.GetAuthor, hid, hex, encodeTo, ResponseWriter.Write,
    ResponseWriter.WriteHeader, ResponseWriter.SetHeader, NewRecorder, StatusNotFound]

/-- C1, at the scenario of the spec: with Alice stored under identity 1,
GET /authors/2 finds the mock returning (nil, nil) and is answered 200 with body
null, not 404. -/
theorem GetAuthor_absent_responds_200_witness :
    strconv.ParseInt ((fixture.request "2" "").PathValue "id") = (2, none) ∧
      (mock.setupHandler.getUC.repo.GetAuthor (fixture.request "2" "").ctx 2
        mock.setupStore).1 = (none, none) ∧
      (mock.setupHandler.GetAuthor fixture.json NewRecorder (fixture.request "2" "")
        mock.setupStore).1.Code = 200 ∧
      (mock.setupHandler.GetAuthor fixture.json NewRecorder (fixture.request "2" "")
        mock.setupStore).1.Body = "null\n" :=
  ⟨by decide, by decide,
    (GetAuthor_absent_responds_200 mock.setupHandler fixture.json (fixture.request "2" "")
      mock.setupStore 2 (by decide) (by decide)).1,
    (GetAuthor_absent_responds_200 mock.setupHandler fixture.json (fixture.request "2" "")
      mock.setupStore 2 (by decide) (by decide)).2.2⟩

/-- C2, as stated, fails for GetAuthor: with a parseable identity and a
repository whose GetAuthor returns an error, the status is 404, not 500. -/
theorem GetAuthor_repository_error_not_500 :
    strconv.ParseInt ((fixture.request "1" "").PathValue "id") = (1, none) ∧
      (mock.setupHandler.getUC.repo.GetAuthor (fixture.request "1" "").ctx 1
        fixture.failingStore).1.2 ≠ none ∧
      (mock.setupHandler.GetAuthor fixture.json NewRecorder (fixture.request "1" "")
        fixture.failingStore).1.Code = 404 ∧
      (mock.setupHandler.GetAuthor fixture.json NewRecorder (fixture.request "1" "")
        fixture.failingStore).1.Code ≠ StatusInternalServerError := by
  decide

/-- C2, amended: when the inputs parse and the repository operation returns an
error, ListAuthors, CreateAuthor, UpdateAuthor and DeleteAuthor answer 500 and
GetAuthor answers 404, each with its fixed JSON error envelope (followed by a
newline) as body. -/
theorem handlers_on_repository_error {σ : Type} (h : AuthorHandler σ) (j : JSON)
    (r : Request) (s : σ) :
    ((h.listUC.repo.ListAuthors r.ctx s).1.2 ≠ none →
        (h.ListAuthors j NewRecorder r s).1.Code = 500 ∧
        (h.ListAuthors j NewRecorder r s).1.Body =
          "\x7b\"error\":\"failed to list authors\"\x7d\n") ∧
    (∀ id : Int, strconv.ParseInt (r.PathValue "id") = (id, none) →
        (h.getUC.repo.GetAuthor r.ctx id s).1.2 ≠ none →
        (h.GetAuthor j NewRecorder r s).1.Code = 404 ∧
        (h.GetAuthor j NewRecorder r s).1.Body =
          "\x7b\"error\":\"author not found\"\x7d\n") ∧
    (∀ params : CreateAuthorParams, j.decodeCreate r.Body = some params →
        (h.createUC.repo.CreateAuthor r.ctx params s).1.2 ≠ none →
        (h.CreateAuthor j NewRecorder r s).1.Code = 500 ∧
        (h.CreateAuthor j NewRecorder r s).1.Body =
          "\x7b\"error\":\"failed to create author\"\x7d\n") ∧
    (∀ (id : Int) (params : UpdateAuthorParams),
        strconv.ParseInt (r.PathValue "id") = (id, none) →
        j.decodeUpdate r.Body = some params →
        (h.updateUC.repo.UpdateAuthor r.ctx { params with ID := id } s).1 ≠ none →
        (h.UpdateAuthor j NewRecorder r s).1.Code = 500 ∧
        (h.UpdateAuthor j NewRecorder r s).1.Body =
          "\x7b\"error\":\"failed to update author\"\x7d\n") ∧
    (∀ id : Int, strconv.ParseInt (r.PathValue "id") = (id, none) →
        (h.deleteUC.repo.DeleteAuthor r.ctx id s).1 ≠ none →
        (h.DeleteAuthor NewRecorder r s).1.Code = 500 ∧
        (h.DeleteAuthor NewRecorder r s).1.Body =
          "\x7b\"error\":\"failed to delete author\"\x7d\n") := by
  refine ⟨?_, ?_, ?_, ?_, ?_⟩
  · intro he
    obtain ⟨e, hsome⟩ := Option.ne_none_iff_exists'.mp he
    have hex : h.listUC.Execute r.ctx s =
        (((h.listUC.repo.ListAuthors r.ctx s).1.1, some e),
          (h.listUC.repo.ListAuthors r.ctx s).2) := by
      unfold ListAuthorsUseCase.Execute
      rw [← hsome]
    simp [AuthorHandler.ListAuthors, hex, http.Error, ResponseWriter.Write,
      ResponseWriter.WriteHeader, ResponseWriter.SetHeader, ResponseWriter.DelHeader,
      NewRecorder, StatusInternalServerError]
  · intro id hid he
    obtain ⟨e, hsome⟩ := Option.ne_none_iff_exists'.mp he
    have hex : h.getUC.Execute r.ctx id s =
        (((h.getUC.repo.GetAuthor r.ctx id s).1.1, some e),
          (h.getUC.repo.GetAuthor r.ctx id s).2) := by
      unfold GetAuthorUseCase.Execute
      rw [← hsome]
    simp [AuthorHandler.GetAuthor, hid, hex, http.Error, ResponseWriter.Write,
      ResponseWriter.WriteHeader, ResponseWriter.SetHeader, ResponseWriter.DelHeader,
      NewRecorder, StatusNotFound]
  · intro params hdec he
    obtain ⟨e, hsome⟩ := Option.ne_none_iff_exists'.mp he
    have hex : h.createUC.Execute r.ctx params s =
        (((h.createUC.repo.CreateAuthor r.ctx params s).1.1, some e),
          (h.createUC.repo.CreateAuthor r.ctx params s).2) := by
      unfold CreateAuthorUseCase.Execute
      rw [← hsome]
    simp [AuthorHandler.CreateAuthor, hdec, hex, http.Error, ResponseWriter.Write,
      ResponseWriter.WriteHeader, ResponseWriter.SetHeader, ResponseWriter.DelHeader,
      NewRecorder, StatusInternalServerError]
  · intro id params hid hdec he
    obtain ⟨e, hsome⟩ := Option.ne_none_iff_exists'.mp he
    have hex : h.updateUC.Execute r.ctx { params with ID := id } s =
        (some e, (h.updateUC.repo.UpdateAuthor r.ctx { params with ID := id } s).2) := by
      unfold UpdateAuthorUseCase.Execute
      rw [← hsome]
    simp [AuthorHandler.UpdateAuthor, hid, hdec, hex, http.Error, ResponseWriter.Write,
      ResponseWriter.WriteHeader, ResponseWriter.SetHeader, ResponseWriter.DelHeader,
      NewRecorder, StatusInternalServerError]
  · intro id hid he
    obtain ⟨e, hsome⟩ := Option.ne_none_iff_exists'.mp he
    have hex : h.deleteUC.Execute r.ctx id s =
        (some e, (h.deleteUC.repo.DeleteAuthor r.ctx id s).2) := by
      unfold DeleteAuthorUseCase.Execute
      rw [← hsome]
    simp [AuthorHandler.DeleteAuthor, hid, hex, http.Error, ResponseWriter.Write,
      ResponseWriter.WriteHeader, ResponseWriter.SetHeader, ResponseWriter.DelHeader,
      NewRecorder, StatusInternalServerError]

/-- C2, amended, at concrete inputs: on the mock with an injected error, a list
request is answered 500 and GET /authors/1 is answered 404, each with its
envelope. -/
theorem handlers_on_repository_error_witness :
    (mock.setupHandler.listUC.repo.ListAuthors (fixture.request "1" "").ctx
        fixture.failingStore).1.2 ≠ none ∧
      ((mock.setupHandler.ListAuthors fixture.json NewRecorder (fixture.request "1" "")
          fixture.failingStore).1.Code = 500 ∧
        (mock.setupHandler.ListAuthors fixture.json NewRecorder (fixture.request "1" "")
          fixture.failingStore).1.Body = "\x7b\"error\":\"failed to list authors\"\x7d\n") ∧
      ((mock.setupHandler.GetAuthor fixture.json NewRecorder (fixture.request "1" "")
          fixture.failingStore).1.Code = 404 ∧
        (mock.setupHandler.GetAuthor fixture.json NewRecorder (fixture.request "1" "")
          fixture.failingStore).1.Body = "\x7b\"error\":\"author not found\"\x7d\n") ∧
      ((mock.setupHandler.UpdateAuthor fixture.json NewRecorder
          (fixture.request "1" fixture.updateBody) fixture.failingStore).1.Code = 500 ∧
        (mock.setupHandler.UpdateAuthor fixture.json NewRecorder
          (fixture.request "1" fixture.updateBody) fixture.failingStore).1.Body =
            "\x7b\"error\":\"failed to update author\"\x7d\n") :=
  ⟨by decide,
    (handlers_on_repository_error mock.setupHandler fixture.json (fixture.request "1" "")
      fixture.failingStore).1 (by decide),
    (handlers_on_repository_error mock.setupHandler fixture.json (fixture.request "1" "")
      fixture.failingStore).2.1 1 (by decide) (by decide),
    (handlers_on_repository_error mock.setupHandler fixture.json
      (fixture.request "1" fixture.updateBody) fixture.failingStore).2.2.2.1 1
      { ID := 1, Name := "Alice Updated", Bio := { String := "Updated", Valid := true } }
      (by decide) (by decide) (by decide)⟩

/-- C3: on an error response the Content-Type that is sent is not
application/json. Each handler sets the JSON type first, but http.Error resets
it before the header goes out: for GetAuthor, UpdateAuthor and DeleteAuthor
with a path identity that does not parse, the response carries
text/plain; charset=utf-8. -/
theorem error_response_content_type_is_text_plain {σ : Type} (h : AuthorHandler σ) (j : JSON)
    (r : Request) (s : σ) (herr : (strconv.ParseInt (r.PathValue "id")).2 ≠ none) :
    (h.GetAuthor j NewRecorder r s).1.snapHeader.Get "Content-Type"
        = "text/plain; charset=utf-8" ∧
      (h.UpdateAuthor j NewRecorder r s).1.snapHeader.Get "Content-Type"
        = "text/plain; charset=utf-8" ∧
      (h.DeleteAuthor NewRecorder r s).1.snapHeader.Get "Content-Type"
        = "text/plain; charset=utf-8" ∧
      (h.GetAuthor j NewRecorder r s).1.snapHeader.Get "Content-Type" ≠ "application/json" := by
  obtain ⟨v, e, hp⟩ := strconv.ParseInt_error_shape _ herr
  have hget : (h.GetAuthor j NewRecorder r s).1.snapHeader.Get "Content-Type"
      = "text/plain; charset=utf-8" := by
    simp only [AuthorHandler.GetAuthor, hp]
    exact (Error_jsonRecorder _ _).2.2
  refine ⟨hget, ?_, ?_, ?_⟩
  · simp only [AuthorHandler.UpdateAuthor, hp]
    exact (Error_jsonRecorder _ _).2.2
  · simp only [AuthorHandler.DeleteAuthor, hp]
    exact (Error_jsonRecorder _ _).2.2
  · rw [hget]
    decide

/-- C3, at the request of TestGetAuthor_InvalidID: GET /authors/invalid is
answered with Content-Type text/plain; charset=utf-8. -/
theorem error_response_content_type_is_text_plain_witness :
    (strconv.ParseInt ((fixture.request "invalid" "").PathValue "id")).2 ≠ none ∧
      (mock.setupHandler.GetAuthor fixture.json NewRecorder (fixture.request "invalid" "")
        mock.setupStore).1.snapHeader.Get "Content-Type" = "text/plain; charset=utf-8" :=
  ⟨by decide,
    (error_response_content_type_is_text_plain mock.setupHandler fixture.json
      (fixture.request "invalid" "") mock.setupStore (by decide)).1⟩

/-- C4: for GetAuthor, UpdateAuthor and DeleteAuthor, when the path identity is
not base-10 text of a value in the signed 64-bit range (an optional sign and one
or more decimal digits, as ParseInt reads it), the response is 400 with the
envelope "invalid author id" and the store state is returned untouched, for
every repository; in particular a repository that logs its calls ends with the
log it started with, so no repository method was called. -/
theorem invalid_path_id_is_400_without_repository_call {σ : Type} (h : AuthorHandler σ)
    (j : JSON) (r : Request) (s : σ) (hbad : ¬ strconv.IsInt64Text (r.PathValue "id")) :
    ((h.GetAuthor j NewRecorder r s).1.Code = 400 ∧
        (h.GetAuthor j NewRecorder r s).1.Body = "\x7b\"error\":\"invalid author id\"\x7d\n" ∧
        (h.GetAuthor j NewRecorder r s).2 = s) ∧
      ((h.UpdateAuthor j NewRecorder r s).1.Code = 400 ∧
        (h.UpdateAuthor j NewRecorder r s).1.Body = "\x7b\"error\":\"invalid author id\"\x7d\n" ∧
        (h.UpdateAuthor j NewRecorder r s).2 = s) ∧
      ((h.DeleteAuthor NewRecorder r s).1.Code = 400 ∧
        (h.DeleteAuthor NewRecorder r s).1.Body = "\x7b\"error\":\"invalid author id\"\x7d\n" ∧
        (h.DeleteAuthor NewRecorder r s).2 = s) ∧
      (∀ (repo : Repository σ) (log : List Call),
        ((wire (traced repo)).GetAuthor j NewRecorder r (s, log)).2 = (s, log) ∧
        ((wire (traced repo)).UpdateAuthor j NewRecorder r (s, log)).2 = (s, log) ∧
        ((wire (traced repo)).DeleteAuthor NewRecorder r (s, log)).2 = (s, log)) := by
  obtain ⟨v, e, hp⟩ :=
    strconv.ParseInt_error_shape _ ((strconv.ParseInt_fails_iff _).mpr hbad)
  have hmsg : "\x7b\"error\":\"invalid author id\"\x7d" ++ "\n"
      = "\x7b\"error\":\"invalid author id\"\x7d\n" := by decide
  refine ⟨⟨?_, ?_, ?_⟩, ⟨?_, ?_, ?_⟩, ⟨?_, ?_, ?_⟩, ?_⟩
  · simp only [AuthorHandler.GetAuthor, hp]
    exact (Error_jsonRecorder _ _).1
  · simp only [AuthorHandler.GetAuthor, hp]
    rw [(Error_jsonRecorder _ _).2.1, hmsg]
  · simp only [AuthorHandler.GetAuthor, hp]
  · simp only [AuthorHandler.UpdateAuthor, hp]
    exact (Error_jsonRecorder _ _).1
  · simp only [AuthorHandler.UpdateAuthor, hp]
    rw [(Error_jsonRecorder _ _).2.1, hmsg]
  · simp only [AuthorHandler.UpdateAuthor, hp]
  · simp only [AuthorHandler.DeleteAuthor, hp]
    exact (Error_jsonRecorder _ _).1
  · simp only [AuthorHandler.DeleteAuthor, hp]
    rw [(Error_jsonRecorder _ _).2.1, hmsg]
  · simp only [AuthorHandler.DeleteAuthor, hp]
  · intro repo log
    refine ⟨?_, ?_, ?_⟩
    · simp only [AuthorHandler.GetAuthor, hp]
    · simp only [AuthorHandler.UpdateAuthor, hp]
    · simp only [AuthorHandler.DeleteAuthor, hp]

/-- C4, at the request of TestGetAuthor_InvalidID: GET /authors/invalid is
answered 400 and the store of setupHandler is as it was. -/
theorem invalid_path_id_is_400_without_repository_call_witness :
    ¬ strconv.IsInt64Text ((fixture.request "invalid" "").PathValue "id") ∧
      (mock.setupHandler.GetAuthor fixture.json NewRecorder (fixture.request "invalid" "")
        mock.setupStore).1.Code = 400 ∧
      (mock.setupHandler.GetAuthor fixture.json NewRecorder (fixture.request "invalid" "")
        mock.setupStore).1.Body = "\x7b\"error\":\"invalid author id\"\x7d\n" ∧
      (mock.setupHandler.GetAuthor fixture.json NewRecorder (fixture.request "invalid" "")
        mock.setupStore).2 = mock.setupStore :=
  ⟨(strconv.ParseInt_fails_iff _).mp (by decide),
    (invalid_path_id_is_400_without_repository_call mock.setupHandler fixture.json
      (fixture.request "invalid" "") mock.setupStore
      ((strconv.ParseInt_fails_iff _).mp (by decide))).1⟩

/-- C5: when the body does not decode into the parameter shape, CreateAuthor
answers 400, and so does UpdateAuthor when its path identity parses; the store
state is returned untouched for every repository, and a repository that logs
its calls ends with the log it started with. -/
theorem undecodable_body_is_400_without_repository_call {σ : Type} (h : AuthorHandler σ)
    (j : JSON) (r : Request) (s : σ) :
    (j.decodeCreate r.Body = none →
        (h.CreateAuthor j NewRecorder r s).1.Code = 400 ∧
        (h.CreateAuthor j NewRecorder r s).1.Body
          = "\x7b\"error\":\"invalid request payload\"\x7d\n" ∧
        (h.CreateAuthor j NewRecorder r s).2 = s ∧
        (∀ (repo : Repository σ) (log : List Call),
          ((wire (traced repo)).CreateAuthor j NewRecorder r (s, log)).2 = (s, log))) ∧
      (∀ id : Int, strconv.ParseInt (r.PathValue "id") = (id, none) →
        j.decodeUpdate r.Body = none →
        (h.UpdateAuthor j NewRecorder r s).1.Code = 400 ∧
        (h.UpdateAuthor j NewRecorder r s).1.Body
          = "\x7b\"error\":\"invalid request payload\"\x7d\n" ∧
        (h.UpdateAuthor j NewRecorder r s).2 = s ∧
        (∀ (repo : Repository σ) (log : List Call),
          ((wire (traced repo)).UpdateAuthor j NewRecorder r (s, log)).2 = (s, log))) := by
  have hmsg : "\x7b\"error\":\"invalid request payload\"\x7d" ++ "\n"
      = "\x7b\"error\":\"invalid request payload\"\x7d\n" := by decide
  refine ⟨?_, ?_⟩
  · intro hdec
    refine ⟨?_, ?_, ?_, ?_⟩
    · simp only [AuthorHandler.CreateAuthor, hdec]
      exact (Error_jsonRecorder _ _).1
    · simp only [AuthorHandler.CreateAuthor, hdec]
      rw [(Error_jsonRecorder _ _).2.1, hmsg]
    · simp only [AuthorHandler.CreateAuthor, hdec]
    · intro repo log
      simp only [AuthorHandler.CreateAuthor, hdec]
  · intro id hid hdec
    refine ⟨?_, ?_, ?_, ?_⟩
    · simp only [AuthorHandler.UpdateAuthor, hid, hdec]
      exact (Error_jsonRecorder _ _).1
    · simp only [AuthorHandler.UpdateAuthor, hid, hdec]
      rw [(Error_jsonRecorder _ _).2.1, hmsg]
    · simp only [AuthorHandler.UpdateAuthor, hid, hdec]
    · intro repo log
      simp only [AuthorHandler.UpdateAuthor, hid, hdec]

/-- C5, at the request of TestCreateAuthor_InvalidPayload, and at a PUT
/authors/1 with the same body: both are answered 400 and the store of
setupHandler is as it was. -/
theorem undecodable_body_is_400_without_repository_call_witness :
    fixture.json.decodeCreate (fixture.request "1" "invalid json").Body = none ∧
      ((mock.setupHandler.CreateAuthor fixture.json NewRecorder
          (fixture.request "1" "invalid json") mock.setupStore).1.Code = 400 ∧
        (mock.setupHandler.CreateAuthor fixture.json NewRecorder
          (fixture.request "1" "invalid json") mock.setupStore).2 = mock.setupStore) ∧
      ((mock.setupHandler.UpdateAuthor fixture.json NewRecorder
          (fixture.request "1" "invalid json") mock.setupStore).1.Code = 400 ∧
        (mock.setupHandler.UpdateAuthor fixture.json NewRecorder
          (fixture.request "1" "invalid json") mock.setupStore).2 = mock.setupStore) :=
  ⟨by decide,
    ⟨((undecodable_body_is_400_without_repository_call mock.setupHandler fixture.json
        (fixture.request "1" "invalid json") mock.setupStore).1 (by decide)).1,
      ((undecodable_body_is_400_without_repository_call mock.setupHandler fixture.json
        (fixture.request "1" "invalid json") mock.setupStore).1 (by decide)).2.2.1⟩,
    ⟨((undecodable_body_is_400_without_repository_call mock.setupHandler fixture.json
        (fixture.request "1" "invalid json") mock.setupStore).2 1 (by decide) (by decide)).1,
      ((undecodable_body_is_400_without_repository_call mock.setupHandler fixture.json
        (fixture.request "1" "invalid json") mock.setupStore).2 1 (by decide)
        (by decide)).2.2.1⟩⟩

/-- C6: when the inputs parse and the repository behind the use case returns no
error, ListAuthors answers 200 with the encoded list, GetAuthor answers 200 with
the encoded author when one is returned, CreateAuthor answers 201 with the
encoding of the created author, and UpdateAuthor and DeleteAuthor answer 204
with an empty body. -/
theorem handlers_success_status {σ : Type} (h : AuthorHandler σ) (j : JSON) (r : Request)
    (s : σ) :
    ((h.listUC.repo.ListAuthors r.ctx s).1.2 = none →
        (h.ListAuthors j NewRecorder r s).1.Code = 200 ∧
        (h.ListAuthors j NewRecorder r s).1.Body
          = j.encodeAuthors (h.listUC.repo.ListAuthors r.ctx s).1.1 ++ "\n") ∧
    (∀ (id : Int) (a : Author), strconv.ParseInt (r.PathValue "id") = (id, none) →
        (h.getUC.repo.GetAuthor r.ctx id s).1 = (some a, none) →
        (h.GetAuthor j NewRecorder r s).1.Code = 200 ∧
        (h.GetAuthor j NewRecorder r s).1.Body = j.encodeAuthor (some a) ++ "\n") ∧
    (∀ params : CreateAuthorParams, j.decodeCreate r.Body = some params →
        (h.createUC.repo.CreateAuthor r.ctx params s).1.2 = none →
        (h.CreateAuthor j NewRecorder r s).1.Code = 201 ∧
        (h.CreateAuthor j NewRecorder r s).1.Body
          = j.encodeAuthor (h.createUC.repo.CreateAuthor r.ctx params s).1.1 ++ "\n") ∧
    (∀ (id : Int) (params : UpdateAuthorParams),
        strconv.ParseInt (r.PathValue "id") = (id, none) →
        j.decodeUpdate r.Body = some params →
        (h.updateUC.repo.UpdateAuthor r.ctx { params with ID := id } s).1 = none →
        (h.UpdateAuthor j NewRecorder r s).1.Code = 204 ∧
        (h.UpdateAuthor j NewRecorder r s).1.Body = "") ∧
    (∀ id : Int, strconv.ParseInt (r.PathValue "id") = (id, none) →
        (h.deleteUC.repo.DeleteAuthor r.ctx id s).1 = none →
        (h.DeleteAuthor NewRecorder r s).1.Code = 204 ∧
        (h.DeleteAuthor NewRecorder r s).1.Body = "") := by
  refine ⟨?_, ?_, ?_, ?_, ?_⟩
  · intro hok
    have hex : h.listUC.Execute r.ctx s =
        (((h.listUC.repo.ListAuthors r.ctx s).1.1, none),
          (h.listUC.repo.ListAuthors r.ctx s).2) := by
      unfold ListAuthorsUseCase.Execute
      rw [← hok]
    simp [AuthorHandler.ListAuthors, hex, encodeTo, ResponseWriter.Write,
      ResponseWriter.WriteHeader, ResponseWriter.SetHeader, NewRecorder]
  · intro id a hid hok
    have hex : h.getUC.Execute r.ctx id s =
        ((some a, none), (h.getUC.repo.GetAuthor r.ctx id s).2) := by
      unfold GetAuthorUseCase.Execute
      rw [← hok]
    simp [AuthorHandler.GetAuthor, hid, hex, encodeTo, ResponseWriter.Write,
      ResponseWriter.WriteHeader, ResponseWriter.SetHeader, NewRecorder]
  · intro params hdec hok
    have hex : h.createUC.Execute r.ctx params s =
        (((h.createUC.repo.CreateAuthor r.ctx params s).1.1, none),
          (h.createUC.repo.CreateAuthor r.ctx params s).2) := by
      unfold CreateAuthorUseCase.Execute
      rw [← hok]
    simp [AuthorHandler.CreateAuthor, hdec, hex, encodeTo, ResponseWriter.Write,
      ResponseWriter.WriteHeader, ResponseWriter.SetHeader, NewRecorder, StatusCreated]
  · intro id params hid hdec hok
    have hex : h.updateUC.Execute r.ctx { params with ID := id } s =
        (none, (h.updateUC.repo.UpdateAuthor r.ctx { params with ID := id } s).2) := by
      unfold UpdateAuthorUseCase.Execute
      rw [← hok]
    simp [AuthorHandler.UpdateAuthor, hid, hdec, hex, ResponseWriter.WriteHeader,
      ResponseWriter.SetHeader, NewRecorder, StatusNoContent]
  · intro id hid hok
    have hex : h.deleteUC.Execute r.ctx id s =
        (none, (h.deleteUC.repo.DeleteAuthor r.ctx id s).2) := by
      unfold DeleteAuthorUseCase.Execute
      rw [← hok]
    simp [AuthorHandler.DeleteAuthor, hid, hex, ResponseWriter.WriteHeader,
      ResponseWriter.SetHeader, NewRecorder, StatusNoContent]

/-- C6, at the requests of the handler tests on the store of setupHandler:
POST /authors with Charlie is answered 201 with Charlie encoded, PUT /authors/1
and DELETE /authors/1 are answered 204 with an empty body. -/
theorem handlers_success_status_witness :
    fixture.json.decodeCreate (fixture.request "1" fixture.createBody).Body
        = some { Name := "Charlie", Bio := { String := "New author", Valid := true } } ∧
      ((mock.setupHandler.CreateAuthor fixture.json NewRecorder
          (fixture.request "1" fixture.createBody) mock.setupStore).1.Code = 201 ∧
        (mock.setupHandler.CreateAuthor fixture.json NewRecorder
          (fixture.request "1" fixture.createBody) mock.setupStore).1.Body
          = "\x7b\"ID\":1,\"Name\":\"Charlie\",\"Bio\":\"New author\"\x7d\n") ∧
      ((mock.setupHandler.UpdateAuthor fixture.json NewRecorder
          (fixture.request "1" fixture.updateBody) mock.setupStore).1.Code = 204 ∧
        (mock.setupHandler.UpdateAuthor fixture.json NewRecorder
          (fixture.request "1" fixture.updateBody) mock.setupStore).1.Body = "") ∧
      ((mock.setupHandler.DeleteAuthor NewRecorder (fixture.request "1" "")
          mock.setupStore).1.Code = 204 ∧
        (mock.setupHandler.DeleteAuthor NewRecorder (fixture.request "1" "")
          mock.setupStore).1.Body = "") :=
  ⟨by decide,
    (handlers_success_status mock.setupHandler fixture.json
      (fixture.request "1" fixture.createBody) mock.setupStore).2.2.1
      { Name := "Charlie", Bio := { String := "New author", Valid := true } }
      (by decide) (by decide),
    (handlers_success_status mock.setupHandler fixture.json
      (fixture.request "1" fixture.updateBody) mock.setupStore).2.2.2.1 1
      { ID := 1, Name := "Alice Updated", Bio := { String := "Updated", Valid := true } }
      (by decide) (by decide) (by decide),
    (handlers_success_status mock.setupHandler fixture.json (fixture.request "1" "")
      mock.setupStore).2.2.2.2 1 (by decide) (by decide)⟩

/-- C7, as stated, fails on a store that already holds identity 1: on the store
of setupHandler, creating Charlie returns an author with identity 1, and getting
identity 1 right after returns Alice. -/
theorem create_then_get_returns_older_author :
    ((NewCreateAuthorUseCase mock.repo).Execute { key := 0 }
        { Name := "Charlie", Bio := { String := "New author", Valid := true } }
        mock.setupStore).1
      = (some { ID := 1, Name := "Charlie", Bio := { String := "New author", Valid := true } },
          none) ∧
    ((NewGetAuthorUseCase mock.repo).Execute { key := 0 } 1
        ((NewCreateAuthorUseCase mock.repo).Execute { key := 0 }
          { Name := "Charlie", Bio := { String := "New author", Valid := true } }
          mock.setupStore).2).1
      = (some { ID := 1, Name := "Alice", Bio := { String := "Author 1", Valid := true } },
          none) := by
  decide

/-- C7, amended: on the in-memory repository with no injected error, for every
store in which no author has identity 1 (the identity the mock gives every
author it creates) and every CreateAuthorParams, creating and then getting the
returned identity yields a present author with the name and biography of the
params. -/
theorem create_then_get_roundtrip (authors : List Author) (params : CreateAuthorParams)
    (ctx ctx2 : Context) (hfresh : ∀ a ∈ authors, a.ID ≠ 1) :
    ∃ created found : Author,
      ((NewCreateAuthorUseCase mock.repo).Execute ctx params
          { authors := authors, err := none }).1 = (some created, none) ∧
      ((NewGetAuthorUseCase mock.repo).Execute ctx2 created.ID
          ((NewCreateAuthorUseCase mock.repo).Execute ctx params
            { authors := authors, err := none }).2).1 = (some found, none) ∧
      found.Name = params.Name ∧ found.Bio = params.Bio := by
  refine ⟨{ ID := 1, Name := params.Name, Bio := params.Bio },
    { ID := 1, Name := params.Name, Bio := params.Bio }, rfl, ?_, rfl, rfl⟩
  simp [NewCreateAuthorUseCase, NewGetAuthorUseCase, CreateAuthorUseCase.Execute,
    GetAuthorUseCase.Execute, mock.repo, mock.mockRepository.CreateAuthor,
    mock.mockRepository.GetAuthor, mock.getLoop_append,
    mock.getLoop_none_of_absent authors 1 hfresh]

/-- C7, amended, on an empty store and on a store holding identity 2. -/
theorem create_then_get_roundtrip_witness :
    (∀ a ∈ ([{ ID := 2, Name := "Bob", Bio := { String := "Author 2", Valid := true } }] :
        List Author), a.ID ≠ 1) ∧
      ∃ created found : Author,
        ((NewCreateAuthorUseCase mock.repo).Execute { key := 0 }
            { Name := "", Bio := { String := "", Valid := false } }
            { authors := [{ ID := 2, Name := "Bob",
                            Bio := { String := "Author 2", Valid := true } }],
              err := none }).1 = (some created, none) ∧
        ((NewGetAuthorUseCase mock.repo).Execute { key := 1 } created.ID
            ((NewCreateAuthorUseCase mock.repo).Execute { key := 0 }
              { Name := "", Bio := { String := "", Valid := false } }
              { authors := [{ ID := 2, Name := "Bob",
                              Bio := { String := "Author 2", Valid := true } }],
                err := none }).2).1 = (some found, none) ∧
        found.Name = "" ∧ found.Bio = { String := "", Valid := false } :=
  ⟨by decide,
    create_then_get_roundtrip
      [{ ID := 2, Name := "Bob", Bio := { String := "Author 2", Valid := true } }]
      { Name := "", Bio := { String := "", Valid := false } } { key := 0 } { key := 1 }
      (by decide)⟩

/-- C8: on the in-memory repository with no injected error, for every store and
every CreateAuthorParams, CreateAuthorUseCase.Execute returns no error and a
present author with a non-zero identity, the name of the params and the
biography of the params (flag and text), and the store becomes the old list
with exactly that author appended. -/
theorem create_returns_author_and_appends (authors : List Author)
    (params : CreateAuthorParams) (ctx : Context) :
    ∃ created : Author,
      ((NewCreateAuthorUseCase mock.repo).Execute ctx params
          { authors := authors, err := none }).1 = (some created, none) ∧
      created.ID ≠ 0 ∧ created.Name = params.Name ∧ created.Bio = params.Bio ∧
      created.Bio.Valid = params.Bio.Valid ∧ created.Bio.String = params.Bio.String ∧
      ((NewCreateAuthorUseCase mock.repo).Execute ctx params
          { authors := authors, err := none }).2
        = { authors := authors ++ [created], err := none } := by
  refine ⟨{ ID := 1, Name := params.Name, Bio := params.Bio }, rfl, ?_, rfl, rfl, rfl, rfl,
    rfl⟩
  show (1 : Int) ≠ 0
  decide

/-- C9: on the in-memory repository with no injected error, for every store and
every identity no stored author has, UpdateAuthorUseCase.Execute and
DeleteAuthorUseCase.Execute with that identity return no error and leave the
store exactly as it was. -/
theorem update_delete_absent_identity_noop (authors : List Author)
    (params : UpdateAuthorParams) (ctx : Context)
    (habs : ∀ a ∈ authors, a.ID ≠ params.ID) :
    (NewUpdateAuthorUseCase mock.repo).Execute ctx params { authors := authors, err := none }
        = (none, { authors := authors, err := none }) ∧
      (NewDeleteAuthorUseCase mock.repo).Execute ctx params.ID
          { authors := authors, err := none }
        = (none, { authors := authors, err := none }) := by
  constructor
  · simp [NewUpdateAuthorUseCase, UpdateAuthorUseCase.Execute, mock.repo,
      mock.mockRepository.UpdateAuthor, mock.updateLoop_of_absent authors params habs]
  · simp [NewDeleteAuthorUseCase, DeleteAuthorUseCase.Execute, mock.repo,
      mock.mockRepository.DeleteAuthor, mock.deleteLoop_of_absent authors params.ID habs]

/-- C9, at the inputs of TestUpdateAuthorUseCase_ExecuteNotFound and
TestDeleteAuthorUseCase_ExecuteNotFound, on the store holding Alice. -/
theorem update_delete_absent_identity_noop_witness :
    (∀ a ∈ mock.setupStore.authors, a.ID ≠ 999) ∧
      (NewUpdateAuthorUseCase mock.repo).Execute { key := 0 }
          { ID := 999, Name := "Ghost", Bio := { String := "Not real", Valid := true } }
          { authors := mock.setupStore.authors, err := none }
        = (none, { authors := mock.setupStore.authors, err := none }) ∧
      (NewDeleteAuthorUseCase mock.repo).Execute { key := 0 } 999
          { authors := mock.setupStore.authors, err := none }
        = (none, { authors := mock.setupStore.authors, err := none }) :=
  ⟨by decide,
    update_delete_absent_identity_noop mock.setupStore.authors
      { ID := 999, Name := "Ghost", Bio := { String := "Not real", Valid := true } }
      { key := 0 } (by decide)⟩

/-- C10: for every implementation of the Repository interface and every input,
each use case's Execute is the repository operation of the same name on the
same arguments: same result, same error, same next state; and run on the
repository with a log in front, it adds exactly one entry to the log, the call
of that operation with the arguments Execute was given. -/
theorem usecases_forward_to_repository {σ : Type} (repo : Repository σ) (ctx : Context)
    (id : Int) (cp : CreateAuthorParams) (up : UpdateAuthorParams) (s : σ)
    (log : List Call) :
    ((NewListAuthorsUseCase repo).Execute ctx s = repo.ListAuthors ctx s ∧
      (NewGetAuthorUseCase repo).Execute ctx id s = repo.GetAuthor ctx id s ∧
      (NewCreateAuthorUseCase repo).Execute ctx cp s = repo.CreateAuthor ctx cp s ∧
      (NewUpdateAuthorUseCase repo).Execute ctx up s = repo.UpdateAuthor ctx up s ∧
      (NewDeleteAuthorUseCase repo).Execute ctx id s = repo.DeleteAuthor ctx id s) ∧
    ((NewListAuthorsUseCase (traced repo)).Execute ctx (s, log)
        = ((repo.ListAuthors ctx s).1, ((repo.ListAuthors ctx s).2,
            log ++ [Call.ListAuthors ctx])) ∧
      (NewGetAuthorUseCase (traced repo)).Execute ctx id (s, log)
        = ((repo.GetAuthor ctx id s).1, ((repo.GetAuthor ctx id s).2,
            log ++ [Call.GetAuthor ctx id])) ∧
      (NewCreateAuthorUseCase (traced repo)).Execute ctx cp (s, log)
        = ((repo.CreateAuthor ctx cp s).1, ((repo.CreateAuthor ctx cp s).2,
            log ++ [Call.CreateAuthor ctx cp])) ∧
      (NewUpdateAuthorUseCase (traced repo)).Execute ctx up (s, log)
        = ((repo.UpdateAuthor ctx up s).1, ((repo.UpdateAuthor ctx up s).2,
            log ++ [Call.UpdateAuthor ctx up])) ∧
      (NewDeleteAuthorUseCase (traced repo)).Execute ctx id (s, log)
        = ((repo.DeleteAuthor ctx id s).1, ((repo.DeleteAuthor ctx id s).2,
            log ++ [Call.DeleteAuthor ctx id]))) := by
  refine ⟨⟨rfl, rfl, rfl, rfl, rfl⟩, rfl, rfl, rfl, rfl, rfl⟩

/-- C11: for each of the five handlers, when the inputs parse and the use case
fails, the whole response (status, live and sent headers, body) is the same
whatever error the use case returned and whatever repository returned it: two
handlers over any two repositories, failing with any two errors on the same
request, produce the same response. The body is thus the handler's fixed
envelope and holds no text of the error. -/
theorem failure_response_independent_of_error {σ τ : Type} (h1 : AuthorHandler σ)
    (h2 : AuthorHandler τ) (j : JSON) (r : Request) (s1 : σ) (s2 : τ) (e1 e2 : Error) :
    ((h1.listUC.Execute r.ctx s1).1.2 = some e1 →
        (h2.listUC.Execute r.ctx s2).1.2 = some e2 →
        (h1.ListAuthors j NewRecorder r s1).1 = (h2.ListAuthors j NewRecorder r s2).1) ∧
    (∀ id : Int, strconv.ParseInt (r.PathValue "id") = (id, none) →
        (h1.getUC.Execute r.ctx id s1).1.2 = some e1 →
        (h2.getUC.Execute r.ctx id s2).1.2 = some e2 →
        (h1.GetAuthor j NewRecorder r s1).1 = (h2.GetAuthor j NewRecorder r s2).1) ∧
    (∀ params : CreateAuthorParams, j.decodeCreate r.Body = some params →
        (h1.createUC.Execute r.ctx params s1).1.2 = some e1 →
        (h2.createUC.Execute r.ctx params s2).1.2 = some e2 →
        (h1.CreateAuthor j NewRecorder r s1).1 = (h2.CreateAuthor j NewRecorder r s2).1) ∧
    (∀ (id : Int) (params : UpdateAuthorParams),
        strconv.ParseInt (r.PathValue "id") = (id, none) →
        j.decodeUpdate r.Body = some params →
        (h1.updateUC.Execute r.ctx { params with ID := id } s1).1 = some e1 →
        (h2.updateUC.Execute r.ctx { params with ID := id } s2).1 = some e2 →
        (h1.UpdateAuthor j NewRecorder r s1).1 = (h2.UpdateAuthor j NewRecorder r s2).1) ∧
    (∀ id : Int, strconv.ParseInt (r.PathValue "id") = (id, none) →
        (h1.deleteUC.Execute r.ctx id s1).1 = some e1 →
        (h2.deleteUC.Execute r.ctx id s2).1 = some e2 →
        (h1.DeleteAuthor NewRecorder r s1).1 = (h2.DeleteAuthor NewRecorder r s2).1) := by
  refine ⟨?_, ?_, ?_, ?_, ?_⟩
  · intro he1 he2
    have hx1 : h1.listUC.Execute r.ctx s1 =
        (((h1.listUC.repo.ListAuthors r.ctx s1).1.1, some e1),
          (h1.listUC.repo.ListAuthors r.ctx s1).2) := by
      unfold ListAuthorsUseCase.Execute at he1 ⊢
      rw [← he1]
    have hx2 : h2.listUC.Execute r.ctx s2 =
        (((h2.listUC.repo.ListAuthors r.ctx s2).1.1, some e2),
          (h2.listUC.repo.ListAuthors r.ctx s2).2) := by
      unfold ListAuthorsUseCase.Execute at he2 ⊢
      rw [← he2]
    simp only [AuthorHandler.ListAuthors, hx1, hx2]
  · intro id hid he1 he2
    have hx1 : h1.getUC.Execute r.ctx id s1 =
        (((h1.getUC.repo.GetAuthor r.ctx id s1).1.1, some e1),
          (h1.getUC.repo.GetAuthor r.ctx id s1).2) := by
      unfold GetAuthorUseCase.Execute at he1 ⊢
      rw [← he1]
    have hx2 : h2.getUC.Execute r.ctx id s2 =
        (((h2.getUC.repo.GetAuthor r.ctx id s2).1.1, some e2),
          (h2.getUC.repo.GetAuthor r.ctx id s2).2) := by
      unfold GetAuthorUseCase.Execute at he2 ⊢
      rw [← he2]
    simp only [AuthorHandler.GetAuthor, hid, hx1, hx2]
  · intro params hdec he1 he2
    have hx1 : h1.createUC.Execute r.ctx params s1 =
        (((h1.createUC.repo.CreateAuthor r.ctx params s1).1.1, some e1),
          (h1.createUC.repo.CreateAuthor r.ctx params s1).2) := by
      unfold CreateAuthorUseCase.Execute at he1 ⊢
      rw [← he1]
    have hx2 : h2.createUC.Execute r.ctx params s2 =
        (((h2.createUC.repo.CreateAuthor r.ctx params s2).1.1, some e2),
          (h2.createUC.repo.CreateAuthor r.ctx params s2).2) := by
      unfold CreateAuthorUseCase.Execute at he2 ⊢
      rw [← he2]
    simp only [AuthorHandler.CreateAuthor, hdec, hx1, hx2]
  · intro id params hid hdec he1 he2
    have hx1 : h1.updateUC.Execute r.ctx { params with ID := id } s1 =
        (some e1, (h1.updateUC.repo.UpdateAuthor r.ctx { params with ID := id } s1).2) := by
      unfold UpdateAuthorUseCase.Execute at he1 ⊢
      rw [← he1]
    have hx2 : h2.updateUC.Execute r.ctx { params with ID := id } s2 =
        (some e2, (h2.updateUC.repo.UpdateAuthor r.ctx { params with ID := id } s2).2) := by
      unfold UpdateAuthorUseCase.Execute at he2 ⊢
      rw [← he2]
    simp only [AuthorHandler.UpdateAuthor, hid, hdec, hx1, hx2]
  · intro id hid he1 he2
    have hx1 : h1.deleteUC.Execute r.ctx id s1 =
        (some e1, (h1.deleteUC.repo.DeleteAuthor r.ctx id s1).2) := by
      unfold DeleteAuthorUseCase.Execute at he1 ⊢
      rw [← he1]
    have hx2 : h2.deleteUC.Execute r.ctx id s2 =
        (some e2, (h2.deleteUC.repo.DeleteAuthor r.ctx id s2).2) := by
      unfold DeleteAuthorUseCase.Execute at he2 ⊢
      rw [← he2]
    simp only [AuthorHandler.DeleteAuthor, hid, hx1, hx2]

/-- C11, on the mock with two different injected errors: GET /authors/1 and
DELETE /authors/1 get the same response from both, and the body of the first is
the fixed envelope. -/
theorem failure_response_independent_of_error_witness :
    (mock.setupHandler.getUC.Execute (fixture.request "1" "").ctx 1 fixture.failingStore).1.2
        = some { msg := "connection refused" } ∧
      (mock.setupHandler.getUC.Execute (fixture.request "1" "").ctx 1 fixture.timeoutStore).1.2
        = some { msg := "context deadline exceeded" } ∧
      (mock.setupHandler.GetAuthor fixture.json NewRecorder (fixture.request "1" "")
          fixture.failingStore).1
        = (mock.setupHandler.GetAuthor fixture.json NewRecorder (fixture.request "1" "")
          fixture.timeoutStore).1 ∧
      (mock.setupHandler.DeleteAuthor NewRecorder (fixture.request "1" "")
          fixture.failingStore).1
        = (mock.setupHandler.DeleteAuthor NewRecorder (fixture.request "1" "")
          fixture.timeoutStore).1 ∧
      (mock.setupHandler.GetAuthor fixture.json NewRecorder (fixture.request "1" "")
          fixture.failingStore).1.Body = "\x7b\"error\":\"author not found\"\x7d\n" :=
  ⟨by decide, by decide,
    (failure_response_independent_of_error mock.setupHandler mock.setupHandler fixture.json
      (fixture.request "1" "") fixture.failingStore fixture.timeoutStore
      { msg := "connection refused" } { msg := "context deadline exceeded" }).2.1 1
      (by decide) (by decide) (by decide),
    (failure_response_independent_of_error mock.setupHandler mock.setupHandler fixture.json
      (fixture.request "1" "") fixture.failingStore fixture.timeoutStore
      { msg := "connection refused" } { msg := "context deadline exceeded" }).2.2.2.2 1
      (by decide) (by decide) (by decide),
    by decide⟩

/-- C12, as stated, fails: over a table that has no row for identity 2, the
adapter's GetAuthor does not return an absent author with no error. When the
query layer reports the missing row as an error, the adapter returns that
error; when it reports a zero row with no error, the adapter returns a present
author. -/
theorem adapter_GetAuthor_no_row_is_not_absent_without_error :
    (fixture.aliceTable.find? (fun a => a.ID == 2)) = none ∧
      ((repository.AuthorRepository.mk fixture.tableQueries).GetAuthor { key := 0 } 2
          fixture.aliceTable).1 = (none, some fixture.ErrNoRows) ∧
      ((repository.AuthorRepository.mk fixture.tableQueries).GetAuthor { key := 0 } 2
          fixture.aliceTable).1 ≠ (none, none) ∧
      ((repository.AuthorRepository.mk fixture.silentQueries).GetAuthor { key := 0 } 2
          fixture.aliceTable).1 ≠ (none, none) := by
  decide

/-- C12, amended: for every query layer, identity and database state, the
adapter's GetAuthor returns what the query layer reports. If the query returns
an error, the adapter returns an absent author with that same error; if it
returns a row and no error, the adapter returns a present author with the
identity, name and biography of the row; the database state is the one the
query left. So the adapter returns an error exactly when the query does, and
it never returns an absent author with no error. -/
theorem adapter_GetAuthor_forwards_query_result {σ : Type} (q : tutorial.Queries σ)
    (ctx : Context) (id : Int) (s : σ) :
    (∀ e : Error, (q.GetAuthor ctx id s).1.2 = some e →
        (repository.AuthorRepository.mk q).GetAuthor ctx id s
          = ((none, some e), (q.GetAuthor ctx id s).2)) ∧
      ((q.GetAuthor ctx id s).1.2 = none →
        (repository.AuthorRepository.mk q).GetAuthor ctx id s
          = ((some { ID := (q.GetAuthor ctx id s).1.1.ID,
                     Name := (q.GetAuthor ctx id s).1.1.Name,
                     Bio := (q.GetAuthor ctx id s).1.1.Bio }, none),
              (q.GetAuthor ctx id s).2)) ∧
      (((repository.AuthorRepository.mk q).GetAuthor ctx id s).1.2 ≠ none ↔
        (q.GetAuthor ctx id s).1.2 ≠ none) ∧
      ((repository.AuthorRepository.mk q).GetAuthor ctx id s).1 ≠ (none, none) := by
  rcases hq : q.GetAuthor ctx id s with ⟨⟨a, err⟩, s1⟩
  cases err with
  | none => simp [repository.AuthorRepository.GetAuthor, hq]
  | some e => simp [repository.AuthorRepository.GetAuthor, hq]

/-- C12, amended, over the table holding Alice: identity 2 yields the query's
error, identity 1 yields Alice. -/
theorem adapter_GetAuthor_forwards_query_result_witness :
    (fixture.tableQueries.GetAuthor { key := 0 } 2 fixture.aliceTable).1.2
        = some fixture.ErrNoRows ∧
      (repository.AuthorRepository.mk fixture.tableQueries).GetAuthor { key := 0 } 2
          fixture.aliceTable
        = ((none, some fixture.ErrNoRows),
            (fixture.tableQueries.GetAuthor { key := 0 } 2 fixture.aliceTable).2) ∧
      (fixture.tableQueries.GetAuthor { key := 0 } 1 fixture.aliceTable).1.2 = none ∧
      ((repository.AuthorRepository.mk fixture.tableQueries).GetAuthor { key := 0 } 1
          fixture.aliceTable).1
        = (some { ID := 1, Name := "Alice", Bio := { String := "Author 1", Valid := true } },
            none) :=
  ⟨by decide,
    (adapter_GetAuthor_forwards_query_result fixture.tableQueries { key := 0 } 2
      fixture.aliceTable).1 fixture.ErrNoRows (by decide),
    by decide,
    congrArg Prod.fst ((adapter_GetAuthor_forwards_query_result fixture.tableQueries
      { key := 0 } 1 fixture.aliceTable).2.1 (by decide))⟩

/-- C13: on the in-memory repository with no injected error, for every store and
every identity some stored author has, DeleteAuthorUseCase.Execute returns no
error and the store becomes the old list with the first author of that
identity cut out: the authors before it and after it stay, unchanged and in
order, and the length drops by exactly one. -/
theorem delete_present_removes_first (authors : List Author) (id : Int) (ctx : Context)
    (hmem : ∃ a ∈ authors, a.ID = id) :
    ∃ (pre : List Author) (a : Author) (post : List Author),
      authors = pre ++ a :: post ∧ a.ID = id ∧ (∀ b ∈ pre, b.ID ≠ id) ∧
      (NewDeleteAuthorUseCase mock.repo).Execute ctx id { authors := authors, err := none }
        = (none, { authors := pre ++ post, err := none }) ∧
      (pre ++ post).length + 1 = authors.length := by
  obtain ⟨pre, a, post, hl, ha, hpre⟩ := mock.split_at_first authors id hmem
  refine ⟨pre, a, post, hl, ha, hpre, ?_, ?_⟩
  · simp only [NewDeleteAuthorUseCase, DeleteAuthorUseCase.Execute, mock.repo,
      mock.mockRepository.DeleteAuthor]
    rw [hl, mock.deleteLoop_at_first pre post a id ha hpre]
  · rw [hl]
    simp only [List.length_append, List.length_cons]
    omega

/-- C13, at the input of TestDeleteAuthorUseCase_Execute: deleting identity 1
from Alice and Bob leaves Bob. -/
theorem delete_present_removes_first_witness :
    (∃ a ∈ fixture.aliceAndBob, a.ID = 1) ∧
      (NewDeleteAuthorUseCase mock.repo).Execute { key := 0 } 1
          { authors := fixture.aliceAndBob, err := none }
        = (none, { authors := [{ ID := 2, Name := "Bob",
                                 Bio := { String := "Author 2", Valid := true } }],
                   err := none }) ∧
      ∃ (pre : List Author) (a : Author) (post : List Author),
        fixture.aliceAndBob = pre ++ a :: post ∧ a.ID = 1 ∧ (∀ b ∈ pre, b.ID ≠ 1) ∧
        (NewDeleteAuthorUseCase mock.repo).Execute { key := 0 } 1
            { authors := fixture.aliceAndBob, err := none }
          = (none, { authors := pre ++ post, err := none }) ∧
        (pre ++ post).length + 1 = fixture.aliceAndBob.length :=
  ⟨by decide, by decide,
    delete_present_removes_first fixture.aliceAndBob 1 { key := 0 } (by decide)⟩

/-- C14: on the in-memory repository with no injected error, for every store and
every UpdateAuthorParams whose ID some stored author has, UpdateAuthorUseCase
.Execute returns no error and the store becomes the old list with the first
author of that identity given the name and biography of the params and its
identity kept; every other author is unchanged, the first author with the
identity now carries the params' name and biography, and the sequence of
identities is the same as before. -/
theorem update_present_overwrites_first (authors : List Author) (params : UpdateAuthorParams)
    (ctx : Context) (hmem : ∃ a ∈ authors, a.ID = params.ID) :
    ∃ (pre : List Author) (a : Author) (post : List Author),
      authors = pre ++ a :: post ∧ a.ID = params.ID ∧ (∀ b ∈ pre, b.ID ≠ params.ID) ∧
      (NewUpdateAuthorUseCase mock.repo).Execute ctx params
          { authors := authors, err := none }
        = (none, { authors := pre ++ { ID := a.ID, Name := params.Name, Bio := params.Bio }
                      :: post,
                   err := none }) ∧
      mock.getLoop ((NewUpdateAuthorUseCase mock.repo).Execute ctx params
          { authors := authors, err := none }).2.authors params.ID
        = some { ID := params.ID, Name := params.Name, Bio := params.Bio } ∧
      ((NewUpdateAuthorUseCase mock.repo).Execute ctx params
          { authors := authors, err := none }).2.authors.map (fun b => b.ID)
        = authors.map (fun b => b.ID) := by
  obtain ⟨pre, a, post, hl, ha, hpre⟩ := mock.split_at_first authors params.ID hmem
  have hex : (NewUpdateAuthorUseCase mock.repo).Execute ctx params
      { authors := authors, err := none }
      = (none, { authors := pre ++ { ID := a.ID, Name := params.Name, Bio := params.Bio }
                    :: post,
                 err := none }) := by
    simp only [NewUpdateAuthorUseCase, UpdateAuthorUseCase.Execute, mock.repo,
      mock.mockRepository.UpdateAuthor]
    rw [hl, mock.updateLoop_at_first pre post a params ha hpre]
  refine ⟨pre, a, post, hl, ha, hpre, hex, ?_, ?_⟩
  · rw [hex]
    have hget := mock.getLoop_at_first pre post
      { ID := a.ID, Name := params.Name, Bio := params.Bio } params.ID ha hpre
    simpa [ha] using hget
  · rw [hex, hl]
    simp

/-- C14, at the input of TestUpdateAuthorUseCase_Execute, with Bob stored after
Alice: Alice gets the new name and biography, Bob is untouched. -/
theorem update_present_overwrites_first_witness :
    (∃ a ∈ fixture.aliceAndBob, a.ID = 1) ∧
      (NewUpdateAuthorUseCase mock.repo).Execute { key := 0 }
          { ID := 1, Name := "Alice Updated", Bio := { String := "Updated bio", Valid := true } }
          { authors := fixture.aliceAndBob, err := none }
        = (none, { authors :=
                     [{ ID := 1, Name := "Alice Updated",
                        Bio := { String := "Updated bio", Valid := true } },
                      { ID := 2, Name := "Bob",
                        Bio := { String := "Author 2", Valid := true } }],
                   err := none }) ∧
      ∃ (pre : List Author) (a : Author) (post : List Author),
        fixture.aliceAndBob = pre ++ a :: post ∧ a.ID = 1 ∧ (∀ b ∈ pre, b.ID ≠ 1) ∧
        (NewUpdateAuthorUseCase mock.repo).Execute { key := 0 }
            { ID := 1, Name := "Alice Updated",
              Bio := { String := "Updated bio", Valid := true } }
            { authors := fixture.aliceAndBob, err := none }
          = (none, { authors := pre ++ { ID := a.ID, Name := "Alice Updated",
                                         Bio := { String := "Updated bio", Valid := true } }
                        :: post,
                     err := none }) ∧
        mock.getLoop ((NewUpdateAuthorUseCase mock.repo).Execute { key := 0 }
            { ID := 1, Name := "Alice Updated",
              Bio := { String := "Updated bio", Valid := true } }
            { authors := fixture.aliceAndBob, err := none }).2.authors 1
          = some { ID := 1, Name := "Alice Updated",
                   Bio := { String := "Updated bio", Valid := true } } ∧
        ((NewUpdateAuthorUseCase mock.repo).Execute { key := 0 }
            { ID := 1, Name := "Alice Updated",
              Bio := { String := "Updated bio", Valid := true } }
            { authors := fixture.aliceAndBob, err := none }).2.authors.map (fun b => b.ID)
          = fixture.aliceAndBob.map (fun b => b.ID) :=
  ⟨by decide, by decide,
    update_present_overwrites_first fixture.aliceAndBob
      { ID := 1, Name := "Alice Updated", Bio := { String := "Updated bio", Valid := true } }
      { key := 0 } (by decide)⟩

/-- C15: for every UpdateAuthor request whose path identity parses to n and whose
body decodes to parameters with whatever ID, the update use case is run on the
parameters with ID n and the name and biography of the body: a repository that
logs its calls gets exactly one call, UpdateAuthor with those parameters, and
for any handler the state after the request is the one that call leaves. -/
theorem UpdateAuthor_path_id_overrides_body_id {σ : Type} (h : AuthorHandler σ)
    (repo : Repository σ) (j : JSON) (r : Request) (s : σ) (log : List Call) (n : Int)
    (params : UpdateAuthorParams)
    (hid : strconv.ParseInt (r.PathValue "id") = (n, none))
    (hdec : j.decodeUpdate r.Body = some params) :
    (h.UpdateAuthor j NewRecorder r s).2
        = (h.updateUC.Execute r.ctx { ID := n, Name := params.Name, Bio := params.Bio } s).2 ∧
      ((wire (traced repo)).UpdateAuthor j NewRecorder r (s, log)).2.2
        = log ++ [Call.UpdateAuthor r.ctx
            { ID := n, Name := params.Name, Bio := params.Bio }] := by
  have key : ∀ {τ : Type} (g : AuthorHandler τ) (t : τ),
      (g.UpdateAuthor j NewRecorder r t).2
        = (g.updateUC.Execute r.ctx { ID := n, Name := params.Name, Bio := params.Bio } t).2 := by
    intro τ g t
    simp only [AuthorHandler.UpdateAuthor, hid, hdec]
    split <;> simp_all
  constructor
  · exact key h s
  · rw [key (wire (traced repo)) (s, log)]
    rfl

/-- C15, on PUT /authors/2 with the body of TestUpdateAuthor_Success, whose ID
is 1: the repository is called with ID 2. -/
theorem UpdateAuthor_path_id_overrides_body_id_witness :
    strconv.ParseInt ((fixture.request "2" fixture.updateBody).PathValue "id") = (2, none) ∧
      fixture.json.decodeUpdate (fixture.request "2" fixture.updateBody).Body
        = some { ID := 1, Name := "Alice Updated",
                 Bio := { String := "Updated", Valid := true } } ∧
      ((wire (traced mock.repo)).UpdateAuthor fixture.json NewRecorder
          (fixture.request "2" fixture.updateBody) (mock.setupStore, [])).2.2
        = [] ++ [Call.UpdateAuthor (fixture.request "2" fixture.updateBody).ctx
            { ID := 2, Name := "Alice Updated",
              Bio := { String := "Updated", Valid := true } }] :=
  ⟨by decide, by decide,
    (UpdateAuthor_path_id_overrides_body_id mock.setupHandler mock.repo fixture.json
      (fixture.request "2" fixture.updateBody) mock.setupStore [] 2
      { ID := 1, Name := "Alice Updated", Bio := { String := "Updated", Valid := true } }
      (by decide) (by decide)).2⟩

end SqlcTest
